import Mathlib

/-!
# Verification of the drawpiano note-geometry / input-translation engine

Shallow embedding of the engine of `src/DrawKeyboard.ts` (and the variant
class file carrying the QWERTY preset tables) into Lean 4.

JavaScript numbers are modelled as exact rationals (`ℚ`); the magnitudes
involved are far from any binary-float rounding boundary.  `Math.floor`
becomes `jsFloor`, the ToInt32 conversion performed by the bitwise
operators becomes truncation plus a two's-complement wrap, and the JS `%`
operator becomes `jsRem`.  MIDI note numbers that the code keeps as plain
JS numbers stay `ℚ`.
-/

namespace DrawPiano

/-- `Math.floor` on a JS number: for a rational `q`, the floor is
`q.num / q.den` (integer Euclidean division), kept in this computable form
so concrete inputs evaluate by `decide`. -/
def jsFloor (q : ℚ) : ℤ := q.num / q.den

/-- Truncation toward zero, as performed by the ToInt32 conversion of the
JS bitwise operators and by the JS `%` operator. -/
def jsTrunc (q : ℚ) : ℤ := if 0 ≤ q then jsFloor q else -jsFloor (-q)

/-- The JS remainder operator `a % b` (result has the sign of the dividend). -/
def jsRem (a b : ℚ) : ℚ := a - b * (jsTrunc (a / b) : ℚ)

/-- The unsigned 32-bit pattern of ToInt32 of a JS number. -/
def int32bits (q : ℚ) : ℕ := ((jsTrunc q) % 4294967296).toNat

/-- Read a 32-bit pattern back as a signed (two's-complement) integer. -/
def ofBits32 (n : ℕ) : ℤ := if n < 2147483648 then (n : ℤ) else (n : ℤ) - 4294967296

/-- JS bitwise AND `a & b` (ToInt32 both operands, AND the bit patterns). -/
def jsAnd (a b : ℚ) : ℚ := ((ofBits32 (int32bits a &&& int32bits b) : ℤ) : ℚ)

/-- JS bitwise OR `a | b`. -/
def jsOr (a b : ℚ) : ℚ := ((ofBits32 (int32bits a ||| int32bits b) : ℤ) : ℚ)

/-- JS arithmetic right shift `a >> b` (shift count is taken mod 32). -/
def jsShr (a b : ℚ) : ℚ :=
  ((Int.fdiv (ofBits32 (int32bits a)) (2 ^ (int32bits b % 32)) : ℤ) : ℚ)

/-- JS left shift `a << b` (shift count mod 32, result wrapped to 32 bits). -/
def jsShl (a b : ℚ) : ℚ :=
  ((ofBits32 ((int32bits a <<< (int32bits b % 32)) % 4294967296) : ℤ) : ℚ)

/-- `src/utils.ts`: `mod = (n, m) => ((n % m) + m) % m`. -/
def mod (n m : ℚ) : ℚ := jsRem (jsRem n m + m) m

/-- `src/utils.ts`: `clamp = (value, min, max) => Math.max(min, Math.min(max, value))`. -/
def clamp (value lo hi : ℚ) : ℚ := max lo (min hi value)

/-- `PIANO_KEYS.black` from `src/types.ts`. -/
def PIANO_KEYS_black : List ℚ := [1, 3, 6, 8, 10]

/-- `PIANO_KEYS.white` from `src/types.ts`. -/
def PIANO_KEYS_white : List ℚ := [0, 2, 4, 5, 7, 9, 11]

/-- `Array.prototype.indexOf`: index of the first occurrence, `-1` if absent. -/
def jsIndexOf (l : List ℚ) (x : ℚ) : ℤ :=
  match l.indexOf? x with
  | some i => (i : ℤ)
  | none => -1

/-- The `DrawKeyboard` instance fields the engine reads (`src/DrawKeyboard.ts`),
with the constructor's default values.  `rectLeft`/`rectTop` stand for
`canvas.getBoundingClientRect()`. -/
structure DrawKeyboard where
  whiteKeyWidth : ℚ := 15
  whiteKeyHeight : ℚ := 80
  startingNote : ℚ := 12
  noteVelocity : ℚ := 100
  highlightColor : String := "#4ea1ff"
  gesturesPitchBend : Bool := true
  gesturesModulation : Bool := true
  rectLeft : ℚ := 0
  rectTop : ℚ := 0
deriving DecidableEq

/-- `this.blackKeyWidth = this.whiteKeyWidth / 2 - 2`. -/
def DrawKeyboard.blackKeyWidth (k : DrawKeyboard) : ℚ := k.whiteKeyWidth / 2 - 2

/-- `this.blackKeyHeight = this.whiteKeyHeight * 0.65 - 2`. -/
def DrawKeyboard.blackKeyHeight (k : DrawKeyboard) : ℚ := k.whiteKeyHeight * 0.65 - 2

/-- `private readonly canvasMarginX = 2`. -/
def canvasMarginX : ℚ := 2

/-- `private readonly canvasMarginY = 2`. -/
def canvasMarginY : ℚ := 2

/-- A `DOMRect` as constructed by `getNoteRect`. -/
structure DOMRect where
  x : ℚ
  y : ℚ
  width : ℚ
  height : ℚ
deriving DecidableEq

/-- `getNoteRect` (`src/DrawKeyboard.ts` lines 256-278).  The TS return type
is `DOMRect | null`, modelled as `Option DOMRect`; note that the body has no
guard and never produces `null`. -/
def getNoteRect (k : DrawKeyboard) (noteNumber : ℚ) : Option DOMRect :=
  let relativeNote := noteNumber - k.startingNote
  let chromaticNote := mod (relativeNote + 1200) 12
  let isBlackKey := PIANO_KEYS_black.contains chromaticNote
  let octaveNumber : ℚ := (jsFloor (relativeNote / 12) : ℚ)
  if isBlackKey then
    let blackKeyXIndex :=
      7 * octaveNumber +
        (if chromaticNote < 4 then (chromaticNote + 1) / 2 else chromaticNote / 2 + 1) - 1
    let x := canvasMarginX + blackKeyXIndex * k.whiteKeyWidth + k.whiteKeyWidth * 0.75
    let y := canvasMarginY
    some ⟨x, y, k.blackKeyWidth, k.blackKeyHeight⟩
  else
    let whiteKeyIndex := jsIndexOf PIANO_KEYS_white chromaticNote
    let whiteKeyPosition := (whiteKeyIndex : ℚ) + 7 * octaveNumber
    let x := canvasMarginX + whiteKeyPosition * k.whiteKeyWidth
    let y := canvasMarginY
    some ⟨x, y, k.whiteKeyWidth, k.whiteKeyHeight⟩

/-- `coordsToNote` (`src/DrawKeyboard.ts` lines 479-511). -/
def coordsToNote (k : DrawKeyboard) (canvasX canvasY : ℚ) : ℚ :=
  let adjustedX := canvasX - canvasMarginX
  let couldBeBlackKey := canvasY < k.blackKeyHeight + 2
  let whiteKeyIndex : ℚ := (jsFloor (adjustedX / k.whiteKeyWidth) : ℚ)
  let xWithinKey := adjustedX - whiteKeyIndex * k.whiteKeyWidth
  let leftBlackKeyZone := couldBeBlackKey ∧ xWithinKey < k.whiteKeyWidth * 0.35
  let rightBlackKeyZone := couldBeBlackKey ∧ xWithinKey > k.whiteKeyWidth * (1 - 0.35)
  let octaveNumber : ℚ := (jsFloor (whiteKeyIndex / 7) : ℚ)
  let whiteKeyInOctave0 := whiteKeyIndex - octaveNumber * 7
  let whiteKeyInOctave :=
    PIANO_KEYS_black.foldl (fun w blackKeyNote => if blackKeyNote ≤ w then w + 1 else w)
      whiteKeyInOctave0
  let chromaticNote0 := octaveNumber * 12 + whiteKeyInOctave
  let chromaticNote1 :=
    if rightBlackKeyZone ∧ jsIndexOf PIANO_KEYS_black (mod (chromaticNote0 + 1) 12) ≠ -1 then
      chromaticNote0 + 1
    else chromaticNote0
  let chromaticNote2 :=
    if leftBlackKeyZone ∧ jsIndexOf PIANO_KEYS_black (mod (chromaticNote1 - 1) 12) ≠ -1 then
      chromaticNote1 - 1
    else chromaticNote1
  chromaticNote2 + k.startingNote

/-- A 3-byte MIDI message `[status, data1, data2]` (`src/types.ts`
`MIDIMessage`); every send site in the class passes three entries. -/
structure MIDIMessage where
  status : ℚ
  data1 : ℚ
  data2 : ℚ
deriving DecidableEq

/-- The pitch-bend data-byte pair `[v & 0x7f, (v >> 7) & 0x7f]` computed at
the two pitch-bend send sites (lines 241 and 574). -/
def encodePitchBendBytes (v : ℚ) : ℚ × ℚ := (jsAnd v 0x7f, jsAnd (jsShr v 7) 0x7f)

/-- The pitch-bend decoding `message[1] | (message[2] << 7)` (line 531). -/
def decodePitchBendValue (data1 data2 : ℚ) : ℚ := jsOr data1 (jsShl data2 7)

/-- How `processMidiMessage` (lines 513-548) classifies a message: which
callback / custom event it routes to.  `midiOnly` is the fall-through that
only fires the generic `midi` event. -/
inductive MidiEvent
  | noteOn (note velocity : ℚ)
  | noteOff (note : ℚ)
  | pitchBend (value : ℚ)
  | controlChange (controller value : ℚ)
  | midiOnly
deriving DecidableEq

/-- `processMidiMessage` (`src/DrawKeyboard.ts` lines 513-548). -/
def processMidiMessage (message : MIDIMessage) : MidiEvent :=
  let statusNibble := jsAnd message.status 0xf0
  if statusNibble = 0x90 ∧ message.data2 > 0 then
    .noteOn message.data1 message.data2
  else if statusNibble = 0x80 ∨ (statusNibble = 0x90 ∧ message.data2 = 0) then
    .noteOff message.data1
  else if statusNibble = 0xe0 then
    .pitchBend (decodePitchBendValue message.data1 message.data2)
  else if jsAnd message.status 0xf0 = 0xb0 then
    .controlChange message.data1 message.data2
  else .midiOnly

/-- The three messages sent by `resetModulationAndPitchBend` (lines 239-244). -/
def resetModulationAndPitchBendMsgs : List MIDIMessage :=
  let centerPitchBend : ℚ := 8192
  [⟨0xe0, jsAnd centerPitchBend 0x7f, jsAnd (jsShr centerPitchBend 7) 0x7f⟩,
   ⟨0xb0, 1, 0⟩,
   ⟨0xb0, 11, 127⟩]

/-- `TouchState` (`src/types.ts`): start position, current position, bound note. -/
structure TouchState where
  startPosX : ℚ
  startPosY : ℚ
  currPosX : ℚ
  currPosY : ℚ
  note : ℚ
deriving DecidableEq

/-- `updateTouchPitchBendAndMod` (lines 550-588): the messages sent for a given
set of active touches.  The source accumulates the X sum and the Y maximum in
one loop with `maxYMovement` initialised to `-1000`, then divides the sum by
the touch count; with zero touches both aggregates are forced to `0`. -/
def updateTouchPitchBendAndMod (k : DrawKeyboard) (touchValues : List TouchState) :
    List MIDIMessage :=
  let touchCount := touchValues.length
  let acc :=
    touchValues.foldl
      (fun (p : ℚ × ℚ) touch =>
        (p.1 + (touch.currPosX - touch.startPosX),
          max (touch.currPosY - touch.startPosY) p.2))
      (0, -1000)
  let averageXMovement : ℚ := if touchCount = 0 then 0 else acc.1 / (touchCount : ℚ)
  let maxYMovement : ℚ := if touchCount = 0 then 0 else acc.2
  let pitchMsgs : List MIDIMessage :=
    if k.gesturesPitchBend = true ∧ |averageXMovement| > 10 then
      let bendDirection := averageXMovement > 0
      let bendAmount := min 127 (max 0 (|averageXMovement| - 10))
      let pitchBendValue := 8192 + ((if bendDirection then (1 : ℚ) else -1) * bendAmount * 8191) / 127
      [⟨0xe0, jsAnd pitchBendValue 0x7f, jsAnd (jsShr pitchBendValue 7) 0x7f⟩]
    else []
  let cc : ℚ × ℚ :=
    if k.gesturesModulation = true ∧ maxYMovement ≥ 0 then
      (11, min 127 (max 0 (127 - maxYMovement)))
    else if k.gesturesModulation = true then
      (1, min 127 (max 0 |maxYMovement|))
    else (11, 0)
  let modMsgs : List MIDIMessage :=
    if k.gesturesModulation = true then [⟨0xb0, cc.1, cc.2⟩] else []
  pitchMsgs ++ modMsgs

/-- The mutable per-instance state the claims touch: the active-touch map and
the render queue of `[relativeNote, color, highlighted]` draw commands. -/
structure KbState where
  activeTouches : List (ℕ × TouchState)
  renderQueue : List (ℚ × String × Bool)
deriving DecidableEq

/-- `press` (lines 204-215): returns the updated state and the MIDI messages
sent. -/
def press (k : DrawKeyboard) (s : KbState) (noteNumber velocity : ℚ) (color : String)
    (sendMidi : Bool) : KbState × List MIDIMessage :=
  if noteNumber < 0 ∨ noteNumber > 127 then (s, [])
  else
    let s1 : KbState :=
      { s with renderQueue := s.renderQueue ++ [(noteNumber - k.startingNote, color, true)] }
    if sendMidi then (s1, [⟨0x90, noteNumber, velocity⟩]) else (s1, [])

/-- `release` (lines 220-226). -/
def release (k : DrawKeyboard) (s : KbState) (noteNumber : ℚ) (sendMidi : Bool) :
    KbState × List MIDIMessage :=
  if noteNumber < 0 ∨ noteNumber > 127 then (s, [])
  else
    let s1 : KbState :=
      { s with
        renderQueue := s.renderQueue ++ [(noteNumber - k.startingNote, k.highlightColor, false)] }
    if sendMidi then (s1, [⟨0x80, noteNumber, 0⟩]) else (s1, [])

/-- `this.activeTouches[id]`. -/
def getTouch (l : List (ℕ × TouchState)) (id : ℕ) : Option TouchState :=
  (l.find? (fun p => p.1 == id)).map (·.2)

/-- `this.activeTouches[id] = t` (overwrite or insert). -/
def setTouch (l : List (ℕ × TouchState)) (id : ℕ) (t : TouchState) :
    List (ℕ × TouchState) :=
  if (l.find? (fun p => p.1 == id)).isSome then
    l.map (fun p => if p.1 == id then (id, t) else p)
  else l ++ [(id, t)]

/-- `delete this.activeTouches[id]`. -/
def delTouch (l : List (ℕ × TouchState)) (id : ℕ) : List (ℕ × TouchState) :=
  l.filter (fun p => p.1 != id)

/-- The `phase` argument of `handleSyntheticTouchLike`. -/
inductive Phase
  | start
  | move
  | end_
deriving DecidableEq

/-- `handleSyntheticTouchLike` (lines 607-639): one pointer event.  Returns the
updated state and the MIDI messages sent (in order).  `canvasX/Y` are the
client coordinates relative to the canvas bounding rect. -/
def handleSyntheticTouchLike (k : DrawKeyboard) (s : KbState) (pointerId : ℕ)
    (clientX clientY : ℚ) (phase : Phase) : KbState × List MIDIMessage :=
  let canvasX := clientX - k.rectLeft
  let canvasY := clientY - k.rectTop
  match phase with
  | .start =>
    let noteNumber := coordsToNote k canvasX canvasY
    let s1 : KbState :=
      { s with
        activeTouches :=
          setTouch s.activeTouches pointerId ⟨clientX, clientY, clientX, clientY, noteNumber⟩ }
    if 0 ≤ noteNumber ∧ noteNumber ≤ 127 then
      let pr := press k s1 noteNumber k.noteVelocity k.highlightColor false
      (pr.1, resetModulationAndPitchBendMsgs ++ [⟨0x90, noteNumber, k.noteVelocity⟩] ++ pr.2)
    else (s1, resetModulationAndPitchBendMsgs)
  | .move =>
    match getTouch s.activeTouches pointerId with
    | some touch =>
      let touch1 := { touch with currPosX := clientX, currPosY := clientY }
      let s1 : KbState := { s with activeTouches := setTouch s.activeTouches pointerId touch1 }
      (s1, updateTouchPitchBendAndMod k (s1.activeTouches.map (·.2)))
    | none => (s, [])
  | .end_ =>
    match getTouch s.activeTouches pointerId with
    | some touch =>
      let noteNumber := touch.note
      let offPart : KbState × List MIDIMessage :=
        if 0 ≤ noteNumber ∧ noteNumber ≤ 127 then
          let rl := release k s noteNumber false
          (rl.1, [⟨0x80, noteNumber, 0⟩] ++ rl.2)
        else (s, [])
      let s1 : KbState := { offPart.1 with activeTouches := delTouch offPart.1.activeTouches pointerId }
      (s1, offPart.2 ++ updateTouchPitchBendAndMod k (s1.activeTouches.map (·.2)))
    | none => (s, [])

/-! ## The QWERTY binding-table builder (the class variant with preset tables) -/

/-- The `qwertyLayout` option. -/
inductive QwertyLayout
  | none
  | singleRow
  | singleRowExtended
  | doubleRow
  | doubleRowExtended
deriving DecidableEq

/-- `QWERTY_PRESETS`: `KeyboardEvent.code -> semitone offset` preset tables;
`Option.none` models the absent `QWERTY_PRESETS['none']` entry. -/
def QWERTY_PRESETS (layout : QwertyLayout) : Option (List (String × ℚ)) :=
  match layout with
  | .singleRow =>
    some [("KeyZ", 0), ("KeyS", 1), ("KeyX", 2), ("KeyD", 3), ("KeyC", 4), ("KeyV", 5),
      ("KeyG", 6), ("KeyB", 7), ("KeyH", 8), ("KeyN", 9), ("KeyJ", 10), ("KeyM", 11),
      ("Comma", 12), ("KeyL", 13), ("Period", 14), ("Semicolon", 15), ("Slash", 16)]
  | .singleRowExtended =>
    some [("Backquote", 0), ("KeyA", 1), ("KeyZ", 2), ("KeyS", 3), ("KeyX", 4), ("KeyC", 5),
      ("KeyF", 6), ("KeyV", 7), ("KeyG", 8), ("KeyB", 9), ("KeyH", 10), ("KeyN", 11),
      ("KeyM", 12), ("KeyK", 13), ("Comma", 14), ("KeyL", 15), ("Period", 16), ("Slash", 17),
      ("Quote", 18)]
  | .doubleRow =>
    some [("Backquote", 0), ("KeyA", 1), ("KeyZ", 2), ("KeyS", 3), ("KeyX", 4), ("KeyC", 5),
      ("KeyF", 6), ("KeyV", 7), ("KeyG", 8), ("KeyB", 9), ("KeyH", 10), ("KeyN", 11),
      ("KeyM", 12), ("KeyK", 13), ("Comma", 14), ("KeyL", 15), ("Period", 16), ("Slash", 17),
      ("Quote", 18),
      ("KeyQ", 17), ("KeyW", 19), ("KeyE", 21), ("KeyR", 23), ("KeyT", 24), ("KeyY", 26),
      ("KeyU", 28), ("KeyI", 29), ("KeyO", 31), ("KeyP", 33), ("BracketLeft", 35),
      ("BracketRight", 36),
      ("Digit2", 18), ("Digit3", 20), ("Digit4", 22), ("Digit6", 25), ("Digit7", 27),
      ("Digit9", 30), ("Digit0", 32), ("Minus", 34)]
  | .doubleRowExtended =>
    some [("Backquote", 0), ("KeyA", 1), ("KeyZ", 2), ("KeyS", 3), ("KeyX", 4), ("KeyC", 5),
      ("KeyF", 6), ("KeyV", 7), ("KeyG", 8), ("KeyB", 9), ("KeyH", 10), ("KeyN", 11),
      ("KeyM", 12), ("KeyK", 13), ("Comma", 14), ("KeyL", 15), ("Period", 16), ("Slash", 17),
      ("Quote", 18),
      ("KeyQ", 17), ("KeyW", 19), ("KeyE", 21), ("KeyR", 23), ("KeyT", 24), ("KeyY", 26),
      ("KeyU", 28), ("KeyI", 29), ("KeyO", 31), ("KeyP", 33), ("BracketLeft", 35),
      ("BracketRight", 36),
      ("Digit2", 18), ("Digit3", 20), ("Digit4", 22), ("Digit6", 25), ("Digit7", 27),
      ("Digit9", 30), ("Digit0", 32), ("Minus", 34)]
  | .none => Option.none

/-- The local `WHITE` array of the double-row fallback. -/
def WHITE : List ℚ := [0, 2, 4, 5, 7, 9, 11]

/-- The local `isBlack` of the double-row fallback:
`(n) => [1,3,6,8,10].includes((n%12+12)%12)`. -/
def isBlackLocal (n : ℚ) : Bool :=
  ([1, 3, 6, 8, 10] : List ℚ).contains (jsRem (jsRem n 12 + 12) 12)

/-- `while (isBlack(n)) n--;` — a black note minus 1 is always white, so the
loop runs at most once; 13 fuel steps are more than enough for any input. -/
def alignWhiteDown : ℕ → ℚ → ℚ
  | 0, n => n
  | fuel + 1, n => if isBlackLocal n then alignWhiteDown fuel (n - 1) else n

/-- The bottom-row white-note assignment loop of the double-row fallback. -/
def doubleRowWhites : List String → ℕ → ℚ → List (String × ℚ)
  | [], _, _ => []
  | code :: rest, wIdx, oct =>
    let chroma := WHITE.getD wIdx 0
    let note := oct * 12 + chroma
    (code, note) ::
      (if wIdx + 1 = 7 then doubleRowWhites rest 0 (oct + 1)
       else doubleRowWhites rest (wIdx + 1) oct)

/-- The black-key insertion loop of the double-row fallback: a black key goes
between consecutive assigned whites exactly 2 semitones apart, consuming
top-row identifiers in order. -/
def insertBlacks : List ℚ → List String → List (String × ℚ)
  | a :: b :: rest, t :: ts =>
    if jsRem ((b - a) + 12) 12 = 2 then (t, a + 1) :: insertBlacks (b :: rest) ts
    else insertBlacks (b :: rest) (t :: ts)
  | _, _ => []

/-- The algorithmic double-row fallback branch of `getQwertyMap` (unreachable
for the shipped presets, kept for faithfulness). -/
def doubleRowFallback (layout : QwertyLayout) (base baseC : ℚ) : List (String × ℚ) :=
  let bottomWhites :=
    ["KeyZ", "KeyX", "KeyC", "KeyV", "KeyB", "KeyN", "KeyM", "Comma", "Period", "Slash"]
  let topBlacksBase :=
    ["KeyQ", "Digit2", "KeyW", "Digit3", "KeyE", "KeyR", "Digit5", "KeyT", "Digit6", "KeyY",
      "Digit7", "KeyU"]
  let topBlacksExt := ["Minus", "Equal", "Semicolon"]
  let topBlacks :=
    if layout = .doubleRowExtended then topBlacksBase ++ topBlacksExt else topBlacksBase
  let n := alignWhiteDown 13 base
  let wIdx := (jsIndexOf WHITE (jsRem (jsRem n 12 + 12) 12)).toNat
  let oct : ℚ := (jsFloor (n / 12) : ℚ)
  let whitesAssoc := doubleRowWhites bottomWhites wIdx oct
  let whites := whitesAssoc.map (·.2)
  let notes := whitesAssoc ++ insertBlacks whites topBlacks
  if layout = .doubleRowExtended then notes ++ [("Backquote", clamp (baseC + 0) 0 127)]
  else notes

/-- The algorithmic single-row fallback branch of `getQwertyMap` (likewise
unreachable for the shipped presets). -/
def singleRowFallback (layout : QwertyLayout) (base baseC : ℚ) : List (String × ℚ) :=
  let seq :=
    ["KeyZ", "KeyS", "KeyX", "KeyD", "KeyC", "KeyV", "KeyG", "KeyB", "KeyH", "KeyN", "KeyJ",
      "KeyM", "Comma"]
  let ext := ["Period", "Slash"]
  let row := if layout = .singleRowExtended then seq ++ ext else seq
  let notes := row.enum.map (fun p => (p.2, clamp (base + (p.1 : ℚ)) 0 127))
  if layout = .singleRowExtended then notes ++ [("Backquote", clamp (baseC + 0) 0 127)]
  else notes

/-- `getQwertyMap` of the preset-table class variant: custom map first (for the
extended layouts), then the static preset anchored to `baseC`, then the
algorithmic fallbacks, else the empty table. -/
def getQwertyMap (layout : QwertyLayout) (qwertyBase : ℚ)
    (qwertyCustomMap : Option (List (String × ℚ))) : List (String × ℚ) :=
  let base := qwertyBase
  let baseC : ℚ := 12 * (jsFloor (base / 12) : ℚ)
  if qwertyCustomMap.isSome ∧ (layout = .singleRowExtended ∨ layout = .doubleRowExtended) then
    (qwertyCustomMap.getD []).map (fun p => (p.1, clamp (baseC + p.2) 0 127))
  else
    match QWERTY_PRESETS layout with
    | some preset =>
      if preset.length ≠ 0 then preset.map (fun p => (p.1, clamp (baseC + p.2) 0 127))
      else if layout = .singleRow ∨ layout = .singleRowExtended then
        singleRowFallback layout base baseC
      else if layout = .doubleRow ∨ layout = .doubleRowExtended then
        doubleRowFallback layout base baseC
      else []
    | Option.none =>
      if layout = .singleRow ∨ layout = .singleRowExtended then
        singleRowFallback layout base baseC
      else if layout = .doubleRow ∨ layout = .doubleRowExtended then
        doubleRowFallback layout base baseC
      else []

/-- The `baseC` anchor of `getQwertyMap`: `12 * Math.floor(base / 12)`, the C
below the configured QWERTY base note. -/
def baseCOf (base : ℚ) : ℚ := 12 * (jsFloor (base / 12) : ℚ)

/-- The pitch-bend value formula as the specification words it (spec §4.4):
`8192 + sign(avgDX) * clamp(|avgDX| - 10, 0, 127) * 8191 / 127`.  Stated from
the spec for comparison with the value the aggregator computes. -/
def spec_pitchBend14 (avgDX : ℚ) : ℚ :=
  8192 + (if 0 < avgDX then (1 : ℚ) else -1) * clamp (|avgDX| - 10) 0 127 * 8191 / 127

end DrawPiano

namespace DrawPiano

/-! ## Basic facts about the JS numeric primitives -/

theorem jsFloor_eq_floor (q : ℚ) : jsFloor q = ⌊q⌋ := Rat.floor_def.symm

theorem jsFloor_intCast (n : ℤ) : jsFloor (n : ℚ) = n := by
  rw [jsFloor_eq_floor]; exact Int.floor_intCast n

theorem jsTrunc_intCast (n : ℤ) : jsTrunc (n : ℚ) = n := by
  unfold jsTrunc
  by_cases h : (0 : ℚ) ≤ (n : ℚ)
  · rw [if_pos h, jsFloor_intCast]
  · rw [if_neg h]
    have : ((-n : ℤ) : ℚ) = -(n : ℚ) := by push_cast; ring
    rw [← this, jsFloor_intCast]; ring

theorem jsTrunc_of_nonneg (q : ℚ) (h : 0 ≤ q) : jsTrunc q = ⌊q⌋ := by
  unfold jsTrunc; rw [if_pos h, jsFloor_eq_floor]

theorem jsFloor_intCast_div_intCast (a b : ℤ) (hb : 0 < b) :
    jsFloor ((a : ℚ) / (b : ℚ)) = a / b := by
  rw [jsFloor_eq_floor]
  have hcast : ((b.toNat : ℕ) : ℚ) = (b : ℚ) := by
    have h := Int.toNat_of_nonneg hb.le
    exact_mod_cast congrArg (fun z : ℤ => (z : ℚ)) h
  rw [← hcast, Rat.floor_intCast_div_natCast, Int.toNat_of_nonneg hb.le]

theorem jsRem_intCast_nonneg (a b : ℤ) (ha : 0 ≤ a) (hb : 0 < b) :
    jsRem (a : ℚ) (b : ℚ) = ((a % b : ℤ) : ℚ) := by
  unfold jsRem
  have hq : (0 : ℚ) ≤ (a : ℚ) / (b : ℚ) := by
    apply div_nonneg
    · exact_mod_cast ha
    · exact_mod_cast hb.le
  rw [jsTrunc_of_nonneg _ hq, ← jsFloor_eq_floor, jsFloor_intCast_div_intCast a b hb]
  have h := Int.emod_def a b
  push_cast [h]; ring

theorem jsRem_intCast_neg (a b : ℤ) (ha : a < 0) (hb : 0 < b) :
    jsRem (a : ℚ) (b : ℚ) = ((a + b * ((-a) / b) : ℤ) : ℚ) := by
  unfold jsRem
  have hq : (a : ℚ) / (b : ℚ) < 0 := by
    apply div_neg_of_neg_of_pos
    · exact_mod_cast ha
    · exact_mod_cast hb
  unfold jsTrunc
  rw [if_neg (not_le.mpr hq)]
  have hneg : -((a : ℚ) / (b : ℚ)) = ((-a : ℤ) : ℚ) / (b : ℚ) := by push_cast; ring
  rw [hneg, jsFloor_intCast_div_intCast (-a) b hb]
  push_cast; ring

theorem mod_intCast (a b : ℤ) (hb : 0 < b) :
    mod (a : ℚ) (b : ℚ) = ((a % b : ℤ) : ℚ) := by
  unfold mod
  by_cases ha : 0 ≤ a
  · rw [jsRem_intCast_nonneg a b ha hb]
    have hcast : ((a % b : ℤ) : ℚ) + (b : ℚ) = ((a % b + b : ℤ) : ℚ) := by push_cast; ring
    have hm := Int.emod_nonneg a (ne_of_gt hb)
    have hnn : 0 ≤ a % b + b := by linarith
    rw [hcast, jsRem_intCast_nonneg _ b hnn hb]
    have hstep : (a % b + b) % b = a % b := by
      rw [show a % b + b = a % b + b * 1 by ring, Int.add_mul_emod_self_left,
        Int.emod_emod_of_dvd a dvd_rfl]
    rw [hstep]
  · push_neg at ha
    rw [jsRem_intCast_neg a b ha hb]
    have hdiv := Int.ediv_add_emod (-a) b
    have hmnn := Int.emod_nonneg (-a) (ne_of_gt hb)
    have hmlt := Int.emod_lt_of_pos (-a) hb
    have hcast : ((a + b * (-a / b) : ℤ) : ℚ) + (b : ℚ) = ((a + b * (-a / b) + b : ℤ) : ℚ) := by
      push_cast; ring
    have hnn : 0 ≤ a + b * (-a / b) + b := by linarith
    rw [hcast, jsRem_intCast_nonneg _ b hnn hb]
    have hstep : (a + b * (-a / b) + b) % b = a % b := by
      rw [show a + b * (-a / b) + b = a + b * (-a / b + 1) by ring, Int.add_mul_emod_self_left]
    rw [hstep]

/-! ## Facts about the 32-bit bitwise operators -/

theorem int32bits_intCast (t : ℤ) (h0 : 0 ≤ t) (h1 : t < 4294967296) :
    int32bits (t : ℚ) = t.toNat := by
  unfold int32bits
  rw [jsTrunc_intCast]
  omega

theorem int32bits_of_floor (q : ℚ) (h0 : 0 ≤ q) (h1 : q < 4294967296) :
    int32bits q = ⌊q⌋.toNat := by
  unfold int32bits
  rw [jsTrunc_of_nonneg _ h0]
  have hf0 : 0 ≤ ⌊q⌋ := Int.floor_nonneg.mpr h0
  have hf1 : ⌊q⌋ < 4294967296 := Int.floor_lt.mpr (by exact_mod_cast h1)
  omega

theorem ofBits32_small (n : ℕ) (h : n < 2147483648) : ofBits32 n = (n : ℤ) := by
  unfold ofBits32
  rw [if_pos h]

theorem int32bits_natCast (n : ℕ) (h : n < 4294967296) : int32bits (n : ℚ) = n := by
  have h1 : int32bits ((n : ℤ) : ℚ) = (n : ℤ).toNat :=
    int32bits_intCast n (by exact_mod_cast Nat.zero_le n) (by exact_mod_cast h)
  have h2 : (((n : ℤ) : ℚ)) = ((n : ℕ) : ℚ) := by push_cast; ring
  rw [h2] at h1
  rw [h1, Int.toNat_natCast]

theorem jsAnd_127 (q : ℚ) (h0 : 0 ≤ q) (h1 : q < 2147483648) :
    jsAnd q 127 = ((⌊q⌋.toNat % 128 : ℕ) : ℚ) := by
  unfold jsAnd
  rw [int32bits_of_floor q h0 (by linarith)]
  rw [show int32bits (127 : ℚ) = 127 from by decide]
  rw [show (127 : ℕ) = 2 ^ 7 - 1 from by norm_num, Nat.and_pow_two_sub_one_eq_mod]
  rw [ofBits32_small _ (by omega)]
  exact_mod_cast rfl

theorem jsShr_7 (q : ℚ) (h0 : 0 ≤ q) (h1 : q < 2147483648) :
    jsShr q 7 = ((⌊q⌋.toNat / 128 : ℕ) : ℚ) := by
  unfold jsShr
  rw [int32bits_of_floor q h0 (by linarith)]
  rw [show int32bits (7 : ℚ) = 7 from by decide]
  have hf0 : 0 ≤ ⌊q⌋ := Int.floor_nonneg.mpr h0
  have hf1 : ⌊q⌋ < 2147483648 := Int.floor_lt.mpr (by exact_mod_cast h1)
  rw [ofBits32_small _ (by omega)]
  have hz : Int.fdiv ((⌊q⌋.toNat : ℕ) : ℤ) (2 ^ (7 % 32)) = ((⌊q⌋.toNat / 128 : ℕ) : ℤ) := by
    rw [Int.fdiv_eq_ediv _ (by norm_num)]
    rw [show (2 : ℤ) ^ (7 % 32) = 128 from by norm_num]
    omega
  rw [hz]
  exact_mod_cast rfl

theorem jsShl_7 (b : ℕ) (h : b < 16777216) : jsShl ((b : ℕ) : ℚ) 7 = ((b * 128 : ℕ) : ℚ) := by
  unfold jsShl
  rw [int32bits_natCast b (by omega)]
  rw [show int32bits (7 : ℚ) = 7 from by decide]
  rw [show (7 : ℕ) % 32 = 7 from by norm_num, Nat.shiftLeft_eq]
  rw [show (2 : ℕ) ^ 7 = 128 from by norm_num]
  rw [Nat.mod_eq_of_lt (by omega)]
  rw [ofBits32_small _ (by omega)]
  exact_mod_cast rfl

theorem nat_lor_low (a b : ℕ) (ha : a < 128) : a ||| (b * 128) = b * 128 + a := by
  apply Nat.eq_of_testBit_eq
  intro j
  rw [Nat.testBit_or]
  rw [show b * 128 = b <<< 7 from by rw [Nat.shiftLeft_eq]]
  rw [Nat.testBit_shiftLeft]
  rw [show b <<< 7 + a = 2 ^ 7 * b + a from by rw [Nat.shiftLeft_eq]; ring]
  rw [Nat.testBit_mul_pow_two_add b (show a < 2 ^ 7 from by omega) j]
  by_cases hj : j < 7
  · have hj' : ¬ (7 : ℕ) ≤ j := by omega
    simp [hj, hj']
  · have hj7 : (7 : ℕ) ≤ j := by omega
    have halow : a.testBit j = false := by
      apply Nat.testBit_lt_two_pow
      calc a < 128 := ha
        _ = 2 ^ 7 := by norm_num
        _ ≤ 2 ^ j := Nat.pow_le_pow_right (by norm_num) hj7
    simp [hj, hj7, halow]

theorem jsOr_bytes (a b : ℕ) (ha : a < 128) (hb : b * 128 < 2147483648) :
    jsOr ((a : ℕ) : ℚ) ((b * 128 : ℕ) : ℚ) = ((b * 128 + a : ℕ) : ℚ) := by
  unfold jsOr
  rw [int32bits_natCast a (by omega), int32bits_natCast (b * 128) (by omega)]
  rw [nat_lor_low a b ha]
  rw [ofBits32_small _ (by omega)]
  exact_mod_cast rfl

/-- Decoding the two 7-bit data bytes produced for a nonnegative value below
16384 recovers the floor of that value. -/
theorem decode_encode_floor (q : ℚ) (h0 : 0 ≤ q) (h1 : q < 16384) :
    decodePitchBendValue (jsAnd q 127) (jsAnd (jsShr q 7) 127) = ((⌊q⌋ : ℤ) : ℚ) := by
  have hf0 : 0 ≤ ⌊q⌋ := Int.floor_nonneg.mpr h0
  have hf1 : ⌊q⌋ < 16384 := Int.floor_lt.mpr (by exact_mod_cast h1)
  set n := ⌊q⌋.toNat with hn
  have hnlt : n < 16384 := by omega
  have hb1 : jsAnd q 127 = ((n % 128 : ℕ) : ℚ) := jsAnd_127 q h0 (by linarith)
  have hshr : jsShr q 7 = ((n / 128 : ℕ) : ℚ) := jsShr_7 q h0 (by linarith)
  have hfl2 : (⌊((n / 128 : ℕ) : ℚ)⌋ : ℤ).toNat = n / 128 := by
    rw [Int.floor_natCast, Int.toNat_natCast]
  have hb2 : jsAnd (jsShr q 7) 127 = ((n / 128 : ℕ) : ℚ) := by
    rw [hshr, jsAnd_127 _ (by positivity) (by
      exact_mod_cast lt_of_le_of_lt (Nat.div_le_self n 128)
        (lt_trans hnlt (by norm_num)))]
    rw [hfl2, Nat.mod_eq_of_lt (by omega)]
  rw [hb1, hb2]
  unfold decodePitchBendValue
  rw [jsShl_7 (n / 128) (by omega)]
  rw [jsOr_bytes (n % 128) (n / 128) (Nat.mod_lt n (by norm_num)) (by
    have := Nat.div_le_self n 128
    omega)]
  have hsum : n / 128 * 128 + n % 128 = n := by omega
  rw [hsum, hn]
  exact_mod_cast congrArg (fun z : ℤ => (z : ℚ)) (Int.toNat_of_nonneg hf0)

/-! ## Geometry helper lemmas -/

theorem mod_twelve (a : ℤ) : mod ((a : ℤ) : ℚ) 12 = ((a % 12 : ℤ) : ℚ) := by
  have h12 : ((12 : ℤ) : ℚ) = 12 := by norm_num
  rw [← h12]
  exact mod_intCast a 12 (by norm_num)

theorem jsFloor_slot_center (s : ℤ) (W : ℚ) (hW : 0 < W) :
    jsFloor (((s : ℚ) * W + W / 2) / W) = s := by
  rw [jsFloor_eq_floor]
  have hW0 : W ≠ 0 := ne_of_gt hW
  have harg : ((s : ℚ) * W + W / 2) / W = (s : ℚ) + 1 / 2 := by field_simp; ring
  rw [harg]
  apply Int.floor_eq_iff.mpr
  constructor
  · linarith
  · push_cast
    linarith

theorem jsFloor_slot_edge (s : ℤ) (W : ℚ) (hW : 1 ≤ W) :
    jsFloor ((((s : ℚ) + 1) * W - 1) / W) = s := by
  rw [jsFloor_eq_floor]
  have hW0 : 0 < W := lt_of_lt_of_le one_pos hW
  have harg : (((s : ℚ) + 1) * W - 1) / W = (s : ℚ) + 1 - 1 / W := by
    field_simp
  have hinv0 : 0 < 1 / W := by positivity
  have hinv1 : 1 / W ≤ 1 := by
    rw [div_le_one hW0]
    exact hW
  rw [harg]
  apply Int.floor_eq_iff.mpr
  constructor
  · linarith
  · push_cast
    linarith

theorem jsFloor_seven (w q : ℤ) (h0 : 0 ≤ w) (h7 : w < 7) :
    jsFloor (((w : ℚ) + 7 * (q : ℚ)) / 7) = q := by
  rw [jsFloor_eq_floor]
  have hw0 : (0 : ℚ) ≤ (w : ℚ) := by exact_mod_cast h0
  have hw7 : (w : ℚ) < 7 := by exact_mod_cast h7
  apply Int.floor_eq_iff.mpr
  constructor
  · rw [le_div_iff (by norm_num : (0:ℚ) < 7)]
    linarith
  · rw [div_lt_iff (by norm_num : (0:ℚ) < 7)]
    push_cast
    linarith

theorem jsFloor_twelve (q rr : ℤ) (h0 : 0 ≤ rr) (h12 : rr < 12) :
    jsFloor (((12 * q + rr : ℤ) : ℚ) / 12) = q := by
  rw [jsFloor_eq_floor]
  have hr0 : (0 : ℚ) ≤ (rr : ℚ) := by exact_mod_cast h0
  have hr12 : (rr : ℚ) < 12 := by exact_mod_cast h12
  apply Int.floor_eq_iff.mpr
  constructor
  · rw [le_div_iff (by norm_num : (0:ℚ) < 12)]
    push_cast
    linarith
  · rw [div_lt_iff (by norm_num : (0:ℚ) < 12)]
    push_cast
    linarith

/-- Hitting the interior mid-line of a white key: the inverse mapping returns
`12 * octave + foldedClass + startingNote`, independent of the y coordinate. -/
theorem coordsToNote_white (k : DrawKeyboard) (hW : 0 < k.whiteKeyWidth)
    (x y : ℚ) (s q w : ℤ) (c : ℚ)
    (hx : x - canvasMarginX = (s : ℚ) * k.whiteKeyWidth + k.whiteKeyWidth / 2)
    (hs : s = w + 7 * q) (h0 : 0 ≤ w) (h7 : w < 7)
    (hfold :
      PIANO_KEYS_black.foldl (fun a b => if b ≤ a then a + 1 else a) ((w : ℤ) : ℚ) = c) :
    coordsToNote k x y = (q : ℚ) * 12 + c + k.startingNote := by
  simp only [coordsToNote]
  rw [hx]
  rw [jsFloor_slot_center s k.whiteKeyWidth hW]
  have hxwk : (s : ℚ) * k.whiteKeyWidth + k.whiteKeyWidth / 2 - (s : ℚ) * k.whiteKeyWidth =
      k.whiteKeyWidth / 2 := by ring
  rw [hxwk]
  have hocts : jsFloor (((s : ℤ) : ℚ) / 7) = q := by
    rw [show ((s : ℤ) : ℚ) = ((w : ℚ) + 7 * (q : ℚ)) from by rw [hs]; push_cast; ring]
    exact jsFloor_seven w q h0 h7
  rw [hocts]
  rw [show ((s : ℤ) : ℚ) - ((q : ℤ) : ℚ) * 7 = ((w : ℤ) : ℚ) from by rw [hs]; push_cast; ring]
  rw [hfold]
  have hz1 : (k.whiteKeyWidth / 2 < k.whiteKeyWidth * 0.35) = False := by
    apply eq_false
    intro h
    rw [show (0.35 : ℚ) = 7 / 20 from by norm_num] at h
    linarith
  have hz2 : (k.whiteKeyWidth / 2 > k.whiteKeyWidth * (1 - 0.35)) = False := by
    apply eq_false
    intro h
    rw [show (1 : ℚ) - 0.35 = 13 / 20 from by norm_num] at h
    linarith
  simp only [hz1, hz2, and_false, false_and, if_false]

/-- Hitting the center of a black key: the point lands on the neighbouring
white key's right edge zone and the tie-break selects the black key. -/
theorem coordsToNote_black (k : DrawKeyboard) (hW : 20 / 7 < k.whiteKeyWidth)
    (x y : ℚ) (hy : y < k.blackKeyHeight + 2)
    (s q w : ℤ) (c : ℚ)
    (hx : x - canvasMarginX = ((s : ℚ) + 1) * k.whiteKeyWidth - 1)
    (hs : s = w + 7 * q) (h0 : 0 ≤ w) (h7 : w < 7)
    (hfold :
      PIANO_KEYS_black.foldl (fun a b => if b ≤ a then a + 1 else a) ((w : ℤ) : ℚ) = c)
    (hidx : jsIndexOf PIANO_KEYS_black (mod ((q : ℚ) * 12 + c + 1) 12) ≠ -1) :
    coordsToNote k x y = (q : ℚ) * 12 + c + 1 + k.startingNote := by
  simp only [coordsToNote]
  rw [hx]
  rw [jsFloor_slot_edge s k.whiteKeyWidth (by linarith)]
  have hxwk : ((s : ℚ) + 1) * k.whiteKeyWidth - 1 - (s : ℚ) * k.whiteKeyWidth =
      k.whiteKeyWidth - 1 := by ring
  rw [hxwk]
  have hocts : jsFloor (((s : ℤ) : ℚ) / 7) = q := by
    rw [show ((s : ℤ) : ℚ) = ((w : ℚ) + 7 * (q : ℚ)) from by rw [hs]; push_cast; ring]
    exact jsFloor_seven w q h0 h7
  rw [hocts]
  rw [show ((s : ℤ) : ℚ) - ((q : ℤ) : ℚ) * 7 = ((w : ℤ) : ℚ) from by rw [hs]; push_cast; ring]
  rw [hfold]
  have hzl : (k.whiteKeyWidth - 1 < k.whiteKeyWidth * 0.35) = False := by
    apply eq_false
    intro h
    rw [show (0.35 : ℚ) = 7 / 20 from by norm_num] at h
    linarith
  have hzr : (k.whiteKeyWidth - 1 > k.whiteKeyWidth * (1 - 0.35)) = True := by
    apply eq_true
    rw [show (1 : ℚ) - 0.35 = 13 / 20 from by norm_num]
    linarith
  have hyt : (y < k.blackKeyHeight + 2) = True := eq_true hy
  simp only [hzl, hzr, hyt, and_false, false_and, and_true, true_and, if_false]
  rw [if_pos hidx]

/-- Evaluation of `getNoteRect` on a white note. -/
theorem getNoteRect_white (k : DrawKeyboard) (note base q w rr : ℤ)
    (hbase : k.startingNote = (base : ℚ))
    (hrel : note - base = 12 * q + rr) (h0 : 0 ≤ rr) (h12 : rr < 12)
    (hblk : PIANO_KEYS_black.contains ((rr : ℤ) : ℚ) = false)
    (hidx : jsIndexOf PIANO_KEYS_white ((rr : ℤ) : ℚ) = w) :
    getNoteRect k (note : ℚ) =
      some ⟨canvasMarginX + (((w : ℤ) : ℚ) + 7 * ((q : ℤ) : ℚ)) * k.whiteKeyWidth,
        canvasMarginY, k.whiteKeyWidth, k.whiteKeyHeight⟩ := by
  simp only [getNoteRect]
  rw [hbase]
  rw [show (note : ℚ) - (base : ℚ) + 1200 = ((note - base + 1200 : ℤ) : ℚ) from by
    push_cast; ring]
  rw [mod_twelve]
  rw [show (note - base + 1200) % 12 = rr from by omega]
  rw [show (note : ℚ) - (base : ℚ) = ((12 * q + rr : ℤ) : ℚ) from by
    rw [← Int.cast_sub, hrel]]
  rw [jsFloor_twelve q rr h0 h12]
  simp only [hblk, Bool.false_eq_true, if_false, hidx]

/-- Evaluation of `getNoteRect` on a black note; `w + 1` is the value of the
slot-offset conditional, so `w` is the white slot left of the black key. -/
theorem getNoteRect_black (k : DrawKeyboard) (note base q w rr : ℤ)
    (hbase : k.startingNote = (base : ℚ))
    (hrel : note - base = 12 * q + rr) (h0 : 0 ≤ rr) (h12 : rr < 12)
    (hblk : PIANO_KEYS_black.contains ((rr : ℤ) : ℚ) = true)
    (hfval :
      (if ((rr : ℤ) : ℚ) < 4 then (((rr : ℤ) : ℚ) + 1) / 2 else ((rr : ℤ) : ℚ) / 2 + 1) =
        ((w : ℤ) : ℚ) + 1) :
    getNoteRect k (note : ℚ) =
      some ⟨canvasMarginX +
          (7 * ((q : ℤ) : ℚ) + (((w : ℤ) : ℚ) + 1) - 1) * k.whiteKeyWidth +
          k.whiteKeyWidth * 0.75,
        canvasMarginY, k.blackKeyWidth, k.blackKeyHeight⟩ := by
  simp only [getNoteRect]
  rw [hbase]
  rw [show (note : ℚ) - (base : ℚ) + 1200 = ((note - base + 1200 : ℤ) : ℚ) from by
    push_cast; ring]
  rw [mod_twelve]
  rw [show (note - base + 1200) % 12 = rr from by omega]
  rw [show (note : ℚ) - (base : ℚ) = ((12 * q + rr : ℤ) : ℚ) from by
    rw [← Int.cast_sub, hrel]]
  rw [jsFloor_twelve q rr h0 h12]
  simp only [hblk, if_true, hfval]

/-- Combined white-key case for the C1 round trip. -/
theorem C1_white_case (k : DrawKeyboard) (hW : 20 / 7 < k.whiteKeyWidth)
    (note base q w rr : ℤ)
    (hbase : k.startingNote = (base : ℚ))
    (hrel : note - base = 12 * q + rr) (h0 : 0 ≤ rr) (h12 : rr < 12)
    (hblk : PIANO_KEYS_black.contains ((rr : ℤ) : ℚ) = false)
    (hidx : jsIndexOf PIANO_KEYS_white ((rr : ℤ) : ℚ) = w)
    (hw0 : 0 ≤ w) (hw7 : w < 7)
    (hfold :
      PIANO_KEYS_black.foldl (fun a b => if b ≤ a then a + 1 else a) ((w : ℤ) : ℚ) =
        ((rr : ℤ) : ℚ))
    (r : DOMRect) (hr : getNoteRect k (note : ℚ) = some r) :
    coordsToNote k (r.x + r.width / 2) (r.y + r.height / 2) = (note : ℚ) := by
  rw [getNoteRect_white k note base q w rr hbase hrel h0 h12 hblk hidx] at hr
  obtain rfl : r = _ := (Option.some.inj hr).symm
  have hres := coordsToNote_white k (by linarith)
    (canvasMarginX + (((w : ℤ) : ℚ) + 7 * ((q : ℤ) : ℚ)) * k.whiteKeyWidth +
      k.whiteKeyWidth / 2)
    (canvasMarginY + k.whiteKeyHeight / 2) (w + 7 * q) q w ((rr : ℤ) : ℚ)
    (by push_cast; ring) rfl hw0 hw7 hfold
  rw [show (⟨canvasMarginX + (((w : ℤ) : ℚ) + 7 * ((q : ℤ) : ℚ)) * k.whiteKeyWidth,
      canvasMarginY, k.whiteKeyWidth, k.whiteKeyHeight⟩ : DOMRect).x +
      (⟨canvasMarginX + (((w : ℤ) : ℚ) + 7 * ((q : ℤ) : ℚ)) * k.whiteKeyWidth,
        canvasMarginY, k.whiteKeyWidth, k.whiteKeyHeight⟩ : DOMRect).width / 2 =
      canvasMarginX + (((w : ℤ) : ℚ) + 7 * ((q : ℤ) : ℚ)) * k.whiteKeyWidth +
        k.whiteKeyWidth / 2 from rfl]
  rw [show (⟨canvasMarginX + (((w : ℤ) : ℚ) + 7 * ((q : ℤ) : ℚ)) * k.whiteKeyWidth,
      canvasMarginY, k.whiteKeyWidth, k.whiteKeyHeight⟩ : DOMRect).y +
      (⟨canvasMarginX + (((w : ℤ) : ℚ) + 7 * ((q : ℤ) : ℚ)) * k.whiteKeyWidth,
        canvasMarginY, k.whiteKeyWidth, k.whiteKeyHeight⟩ : DOMRect).height / 2 =
      canvasMarginY + k.whiteKeyHeight / 2 from rfl]
  rw [hres, hbase]
  have hrelq : (note : ℚ) = (base : ℚ) + 12 * (q : ℚ) + (rr : ℚ) := by
    exact_mod_cast (by omega : note = base + 12 * q + rr)
  linarith

/-- Combined black-key case for the C1 round trip. -/
theorem C1_black_case (k : DrawKeyboard) (hW : 20 / 7 < k.whiteKeyWidth)
    (hH : 40 / 13 < k.whiteKeyHeight)
    (note base q w rr : ℤ)
    (hbase : k.startingNote = (base : ℚ))
    (hrel : note - base = 12 * q + rr) (h0 : 0 ≤ rr) (h12 : rr < 12)
    (hblk : PIANO_KEYS_black.contains ((rr : ℤ) : ℚ) = true)
    (hfval :
      (if ((rr : ℤ) : ℚ) < 4 then (((rr : ℤ) : ℚ) + 1) / 2 else ((rr : ℤ) : ℚ) / 2 + 1) =
        ((w : ℤ) : ℚ) + 1)
    (hw0 : 0 ≤ w) (hw7 : w < 7)
    (hfold :
      PIANO_KEYS_black.foldl (fun a b => if b ≤ a then a + 1 else a) ((w : ℤ) : ℚ) =
        ((rr : ℤ) : ℚ) - 1)
    (hidxb : jsIndexOf PIANO_KEYS_black ((rr : ℤ) : ℚ) ≠ -1)
    (r : DOMRect) (hr : getNoteRect k (note : ℚ) = some r) :
    coordsToNote k (r.x + r.width / 2) (r.y + r.height / 2) = (note : ℚ) := by
  rw [getNoteRect_black k note base q w rr hbase hrel h0 h12 hblk hfval] at hr
  obtain rfl : r = _ := (Option.some.inj hr).symm
  have hmodv : mod ((q : ℚ) * 12 + (((rr : ℤ) : ℚ) - 1) + 1) 12 = ((rr : ℤ) : ℚ) := by
    rw [show (q : ℚ) * 12 + (((rr : ℤ) : ℚ) - 1) + 1 = ((12 * q + rr : ℤ) : ℚ) from by
      push_cast; ring]
    rw [mod_twelve]
    congr 1
    omega
  have hres := coordsToNote_black k hW
    (canvasMarginX + (7 * ((q : ℤ) : ℚ) + (((w : ℤ) : ℚ) + 1) - 1) * k.whiteKeyWidth +
      k.whiteKeyWidth * 0.75 + k.blackKeyWidth / 2)
    (canvasMarginY + k.blackKeyHeight / 2)
    (by
      simp only [DrawKeyboard.blackKeyHeight]
      rw [show (0.65 : ℚ) = 13 / 20 from by norm_num, canvasMarginY]
      ring_nf
      linarith)
    (w + 7 * q) q w (((rr : ℤ) : ℚ) - 1)
    (by
      simp only [DrawKeyboard.blackKeyWidth, canvasMarginX]
      push_cast
      ring)
    rfl hw0 hw7 hfold
    (by rw [hmodv]; exact hidxb)
  rw [show (⟨canvasMarginX +
        (7 * ((q : ℤ) : ℚ) + (((w : ℤ) : ℚ) + 1) - 1) * k.whiteKeyWidth +
        k.whiteKeyWidth * 0.75, canvasMarginY, k.blackKeyWidth,
        k.blackKeyHeight⟩ : DOMRect).x +
      (⟨canvasMarginX +
          (7 * ((q : ℤ) : ℚ) + (((w : ℤ) : ℚ) + 1) - 1) * k.whiteKeyWidth +
          k.whiteKeyWidth * 0.75, canvasMarginY, k.blackKeyWidth,
          k.blackKeyHeight⟩ : DOMRect).width / 2 =
      canvasMarginX +
        (7 * ((q : ℤ) : ℚ) + (((w : ℤ) : ℚ) + 1) - 1) * k.whiteKeyWidth +
        k.whiteKeyWidth * 0.75 + k.blackKeyWidth / 2 from rfl]
  rw [show (⟨canvasMarginX +
        (7 * ((q : ℤ) : ℚ) + (((w : ℤ) : ℚ) + 1) - 1) * k.whiteKeyWidth +
        k.whiteKeyWidth * 0.75, canvasMarginY, k.blackKeyWidth,
        k.blackKeyHeight⟩ : DOMRect).y +
      (⟨canvasMarginX +
          (7 * ((q : ℤ) : ℚ) + (((w : ℤ) : ℚ) + 1) - 1) * k.whiteKeyWidth +
          k.whiteKeyWidth * 0.75, canvasMarginY, k.blackKeyWidth,
          k.blackKeyHeight⟩ : DOMRect).height / 2 =
      canvasMarginY + k.blackKeyHeight / 2 from rfl]
  rw [hres, hbase]
  have hrelq : (note : ℚ) = (base : ℚ) + 12 * (q : ℚ) + (rr : ℚ) := by
    exact_mod_cast (by omega : note = base + 12 * q + rr)
  linarith

/-- C1: for every note in [0,127], hit-testing the center point of the
rectangle returned by `getNoteRect` (with the keyboard's configured base note
and key dimensions) returns that same note:
`coordsToNote(centerX, centerY) = note`.  The key-dimension hypotheses
`20/7 < whiteKeyWidth` and `40/13 < whiteKeyHeight` are far below the
constructor defaults (15 and 80) and the setter minimums (6 and 20). -/
theorem claim_C1 (k : DrawKeyboard) (base note : ℤ)
    (hW : 20 / 7 < k.whiteKeyWidth) (hH : 40 / 13 < k.whiteKeyHeight)
    (hbase : k.startingNote = (base : ℚ))
    (hb0 : 0 ≤ base) (hb1 : base ≤ 127) (hn0 : 0 ≤ note) (hn1 : note ≤ 127)
    (r : DOMRect) (hr : getNoteRect k (note : ℚ) = some r) :
    coordsToNote k (r.x + r.width / 2) (r.y + r.height / 2) = (note : ℚ) := by
  obtain ⟨q, rr, hrel, h0, h12⟩ :
      ∃ q rr, note - base = 12 * q + rr ∧ 0 ≤ rr ∧ rr < 12 :=
    ⟨(note - base) / 12, (note - base) % 12, by omega, by omega, by omega⟩
  interval_cases rr
  · exact C1_white_case k hW note base q 0 0 hbase hrel h0 h12 rfl rfl
      (by decide) (by decide) (by norm_num [PIANO_KEYS_black]) r hr
  · exact C1_black_case k hW hH note base q 0 1 hbase hrel h0 h12 rfl (by norm_num)
      (by decide) (by decide) (by norm_num [PIANO_KEYS_black])
      (by norm_num [jsIndexOf, PIANO_KEYS_black, List.indexOf?]) r hr
  · exact C1_white_case k hW note base q 1 2 hbase hrel h0 h12 rfl rfl
      (by decide) (by decide) (by norm_num [PIANO_KEYS_black]) r hr
  · exact C1_black_case k hW hH note base q 1 3 hbase hrel h0 h12 rfl (by norm_num)
      (by decide) (by decide) (by norm_num [PIANO_KEYS_black])
      (by norm_num [jsIndexOf, PIANO_KEYS_black, List.indexOf?]) r hr
  · exact C1_white_case k hW note base q 2 4 hbase hrel h0 h12 rfl rfl
      (by decide) (by decide) (by norm_num [PIANO_KEYS_black]) r hr
  · exact C1_white_case k hW note base q 3 5 hbase hrel h0 h12 rfl rfl
      (by decide) (by decide) (by norm_num [PIANO_KEYS_black]) r hr
  · exact C1_black_case k hW hH note base q 3 6 hbase hrel h0 h12 rfl (by norm_num)
      (by decide) (by decide) (by norm_num [PIANO_KEYS_black])
      (by norm_num [jsIndexOf, PIANO_KEYS_black, List.indexOf?]) r hr
  · exact C1_white_case k hW note base q 4 7 hbase hrel h0 h12 rfl rfl
      (by decide) (by decide) (by norm_num [PIANO_KEYS_black]) r hr
  · exact C1_black_case k hW hH note base q 4 8 hbase hrel h0 h12 rfl (by norm_num)
      (by decide) (by decide) (by norm_num [PIANO_KEYS_black])
      (by norm_num [jsIndexOf, PIANO_KEYS_black, List.indexOf?]) r hr
  · exact C1_white_case k hW note base q 5 9 hbase hrel h0 h12 rfl rfl
      (by decide) (by decide) (by norm_num [PIANO_KEYS_black]) r hr
  · exact C1_black_case k hW hH note base q 5 10 hbase hrel h0 h12 rfl (by norm_num)
      (by decide) (by decide) (by norm_num [PIANO_KEYS_black])
      (by norm_num [jsIndexOf, PIANO_KEYS_black, List.indexOf?]) r hr
  · exact C1_white_case k hW note base q 6 11 hbase hrel h0 h12 rfl rfl
      (by decide) (by decide) (by norm_num [PIANO_KEYS_black]) r hr

/-- C1 witness: with the default key dimensions (15 × 80) and base note 60,
the rectangle of note 61 (a black key) exists and its center hit-tests back
to 61. -/
theorem claim_C1_witness :
    ∃ r : DOMRect,
      getNoteRect { startingNote := 60 } ((61 : ℤ) : ℚ) = some r ∧
        coordsToNote { startingNote := 60 } (r.x + r.width / 2) (r.y + r.height / 2) =
          ((61 : ℤ) : ℚ) := by
  have hr := getNoteRect_black ({ startingNote := 60 } : DrawKeyboard) 61 60 0 0 1
    (by norm_num) (by norm_num) (by norm_num) (by norm_num) rfl (by norm_num)
  exact ⟨_, hr, claim_C1 _ 60 61 (by norm_num) (by norm_num) (by norm_num) (by norm_num)
    (by norm_num) (by norm_num) (by norm_num) _ hr⟩
/-! ## Claims C10, C3, C4, C8, C7 -/

/-- C10: for every note number outside [0,127], `press` and `release` are
no-ops: they return the state unchanged, enqueue no draw, and emit no MIDI
message, even when `sendMidi` is true. -/
theorem claim_C10 (k : DrawKeyboard) (s : KbState) (noteNumber velocity : ℚ)
    (color : String) (sendMidi : Bool) (hout : noteNumber < 0 ∨ noteNumber > 127) :
    press k s noteNumber velocity color sendMidi = (s, []) ∧
      release k s noteNumber sendMidi = (s, []) := by
  unfold press release
  rw [if_pos hout, if_pos hout]
  exact ⟨rfl, rfl⟩

/-- C10 witness: note 128 with `sendMidi = true` leaves the default state
untouched and sends nothing. -/
theorem claim_C10_witness :
    press ({} : DrawKeyboard) ⟨[], []⟩ 128 100 "red" true = (⟨[], []⟩, []) ∧
      release ({} : DrawKeyboard) ⟨[], []⟩ 128 true = (⟨[], []⟩, []) :=
  claim_C10 {} ⟨[], []⟩ 128 100 "red" true (by norm_num)

/-- C3 counterexample: the claim says `getNoteRect` returns null for notes
outside [0,127]; in fact `getNoteRect` has no range guard, and at note 128
(with the default configuration) it returns a rectangle, not null. -/
theorem claim_C3_counterexample :
    getNoteRect ({} : DrawKeyboard) ((128 : ℤ) : ℚ) ≠ Option.none := by
  have h := getNoteRect_black ({} : DrawKeyboard) 128 12 9 4 8 (by norm_num) (by norm_num)
    (by norm_num) (by norm_num) rfl (by norm_num)
  intro hc
  rw [h] at hc
  exact Option.noConfusion hc

/-- C3 (amended): `getNoteRect` never returns null; for every note number,
inside or outside [0,127], it returns a rectangle. -/
theorem claim_C3 (k : DrawKeyboard) (noteNumber : ℚ) :
    (getNoteRect k noteNumber).isSome = true := by
  simp only [getNoteRect]
  split <;> rfl

/-- C4 counterexample: the claim says `coordsToNote` always returns a note in
[0,127]; with the default configuration (base note 12) the white-key center
point (-110.5, 42) yields -1. -/
theorem claim_C4_counterexample :
    coordsToNote ({} : DrawKeyboard) (-221 / 2) 42 = ((-1 : ℤ) : ℚ) ∧
      ¬(0 ≤ ((-1 : ℤ) : ℚ)) := by
  constructor
  · have h := coordsToNote_white ({} : DrawKeyboard) (by norm_num) (-221 / 2) 42 (-8) (-2) 6
      ((11 : ℤ) : ℚ) (by norm_num [canvasMarginX]) (by norm_num) (by norm_num) (by norm_num)
      (by norm_num [PIANO_KEYS_black])
    rw [h]
    push_cast
    norm_num
  · norm_num

/-- C4 (amended): `coordsToNote` itself performs no clamping and its result
can lie outside [0,127]; the range check happens at the pointer boundary:
when the hit-tested note is out of range, the `start` handler emits only the
three reset messages (no note-on) and enqueues no draw. -/
theorem claim_C4 (k : DrawKeyboard) (s : KbState) (pointerId : ℕ) (clientX clientY : ℚ)
    (hout : ¬(0 ≤ coordsToNote k (clientX - k.rectLeft) (clientY - k.rectTop) ∧
        coordsToNote k (clientX - k.rectLeft) (clientY - k.rectTop) ≤ 127)) :
    (handleSyntheticTouchLike k s pointerId clientX clientY .start).2 =
      resetModulationAndPitchBendMsgs ∧
    (handleSyntheticTouchLike k s pointerId clientX clientY .start).1.renderQueue =
      s.renderQueue := by
  simp only [handleSyntheticTouchLike]
  rw [if_neg hout]
  exact ⟨rfl, rfl⟩

/-- C4 witness: the out-of-range hit at (-110.5, 42) produces only the three
reset messages on pointer-down. -/
theorem claim_C4_witness :
    (handleSyntheticTouchLike ({} : DrawKeyboard) ⟨[], []⟩ 1 (-221 / 2) 42 .start).2 =
      resetModulationAndPitchBendMsgs :=
  (claim_C4 ({} : DrawKeyboard) ⟨[], []⟩ 1 (-221 / 2) 42 (by
    have h := coordsToNote_white ({} : DrawKeyboard) (by norm_num) (-221 / 2) 42 (-8) (-2) 6
      ((11 : ℤ) : ℚ) (by norm_num [canvasMarginX]) (by norm_num) (by norm_num) (by norm_num)
      (by norm_num [PIANO_KEYS_black])
    rw [show ((-221 / 2 : ℚ) - ({} : DrawKeyboard).rectLeft) = (-221 / 2 : ℚ) from by
      norm_num]
    rw [show ((42 : ℚ) - ({} : DrawKeyboard).rectTop) = (42 : ℚ) from by norm_num]
    rw [h]
    push_cast
    norm_num)).1

/-- C8: a NoteOn message with velocity 0 is classified exactly like a NoteOff
for the same note: `processMidiMessage` routes both `[0x90, n, 0]` and
`[0x80, n, 0]` to the note-off path with note `n`. -/
theorem claim_C8 (n : ℚ) (h0 : 0 ≤ n) (h1 : n ≤ 127) :
    processMidiMessage ⟨0x90, n, 0⟩ = MidiEvent.noteOff n ∧
      processMidiMessage ⟨0x80, n, 0⟩ = MidiEvent.noteOff n := by
  constructor
  · simp only [processMidiMessage]
    rw [show jsAnd 0x90 0xf0 = (0x90 : ℚ) from rfl]
    norm_num
  · simp only [processMidiMessage]
    rw [show jsAnd 0x80 0xf0 = (0x80 : ℚ) from rfl]
    norm_num

/-- C8 witness: note 60. -/
theorem claim_C8_witness :
    processMidiMessage ⟨0x90, 60, 0⟩ = MidiEvent.noteOff 60 ∧
      processMidiMessage ⟨0x80, 60, 0⟩ = MidiEvent.noteOff 60 :=
  claim_C8 60 (by norm_num) (by norm_num)

/-- C7: for every 14-bit value v in [0,16383], encoding it as the two
pitch-bend data bytes `[v & 0x7f, (v >> 7) & 0x7f]` and decoding them as
`data1 | (data2 << 7)` returns exactly v. -/
theorem claim_C7 (v : ℕ) (hv : v ≤ 16383) :
    decodePitchBendValue (encodePitchBendBytes ((v : ℕ) : ℚ)).1
      (encodePitchBendBytes ((v : ℕ) : ℚ)).2 = ((v : ℕ) : ℚ) := by
  have h0 : (0 : ℚ) ≤ ((v : ℕ) : ℚ) := by positivity
  have h1 : ((v : ℕ) : ℚ) < 16384 := by exact_mod_cast Nat.lt_succ_of_le hv
  have h := decode_encode_floor ((v : ℕ) : ℚ) h0 h1
  simp only [encodePitchBendBytes]
  rw [h, Int.floor_natCast]
  exact_mod_cast rfl

/-- C7 witness: the center value 8192 round-trips. -/
theorem claim_C7_witness :
    decodePitchBendValue (encodePitchBendBytes ((8192 : ℕ) : ℚ)).1
      (encodePitchBendBytes ((8192 : ℕ) : ℚ)).2 = ((8192 : ℕ) : ℚ) :=
  claim_C7 8192 (by norm_num)

/-! ## Claim C9 -/

/-- Evaluation of `getQwertyMap` for the (non-extended) single-row layout with
no custom map: the static preset applies, anchored to `baseC`. -/
theorem getQwertyMap_singleRow (base : ℚ) :
    getQwertyMap .singleRow base Option.none =
      [("KeyZ", clamp (baseCOf base + 0) 0 127), ("KeyS", clamp (baseCOf base + 1) 0 127),
       ("KeyX", clamp (baseCOf base + 2) 0 127), ("KeyD", clamp (baseCOf base + 3) 0 127),
       ("KeyC", clamp (baseCOf base + 4) 0 127), ("KeyV", clamp (baseCOf base + 5) 0 127),
       ("KeyG", clamp (baseCOf base + 6) 0 127), ("KeyB", clamp (baseCOf base + 7) 0 127),
       ("KeyH", clamp (baseCOf base + 8) 0 127), ("KeyN", clamp (baseCOf base + 9) 0 127),
       ("KeyJ", clamp (baseCOf base + 10) 0 127), ("KeyM", clamp (baseCOf base + 11) 0 127),
       ("Comma", clamp (baseCOf base + 12) 0 127), ("KeyL", clamp (baseCOf base + 13) 0 127),
       ("Period", clamp (baseCOf base + 14) 0 127),
       ("Semicolon", clamp (baseCOf base + 15) 0 127),
       ("Slash", clamp (baseCOf base + 16) 0 127)] := by
  simp only [getQwertyMap, QWERTY_PRESETS, baseCOf]
  norm_num [List.map]

/-- C9 counterexample: the claim assigns the single-row sequence the notes
`baseNote + i`, i.e. KeyZ ↦ 61 when the QWERTY base note is 61; the built
table instead pins KeyZ to `baseC = 60`. -/
theorem claim_C9_counterexample :
    (getQwertyMap .singleRow 61 Option.none).lookup "KeyZ" = some 60 ∧ (60 : ℚ) ≠ 61 := by
  constructor
  · rw [getQwertyMap_singleRow]
    have hlk : List.lookup "KeyZ"
        [("KeyZ", clamp (baseCOf 61 + 0) 0 127), ("KeyS", clamp (baseCOf 61 + 1) 0 127),
         ("KeyX", clamp (baseCOf 61 + 2) 0 127), ("KeyD", clamp (baseCOf 61 + 3) 0 127),
         ("KeyC", clamp (baseCOf 61 + 4) 0 127), ("KeyV", clamp (baseCOf 61 + 5) 0 127),
         ("KeyG", clamp (baseCOf 61 + 6) 0 127), ("KeyB", clamp (baseCOf 61 + 7) 0 127),
         ("KeyH", clamp (baseCOf 61 + 8) 0 127), ("KeyN", clamp (baseCOf 61 + 9) 0 127),
         ("KeyJ", clamp (baseCOf 61 + 10) 0 127), ("KeyM", clamp (baseCOf 61 + 11) 0 127),
         ("Comma", clamp (baseCOf 61 + 12) 0 127), ("KeyL", clamp (baseCOf 61 + 13) 0 127),
         ("Period", clamp (baseCOf 61 + 14) 0 127),
         ("Semicolon", clamp (baseCOf 61 + 15) 0 127),
         ("Slash", clamp (baseCOf 61 + 16) 0 127)] =
        some (clamp (baseCOf 61 + 0) 0 127) := rfl
    rw [hlk]
    have hbc : baseCOf 61 = 60 := by
      unfold baseCOf
      rw [jsFloor_eq_floor]
      norm_num
    rw [hbc]
    norm_num [clamp]
  · norm_num

/-- C9 (amended): for the non-extended single-row layout the built table has
17 bindings (the 13-identifier chromatic sequence Z S X D C V G B H N J M ,
plus the four continuation identifiers KeyL Period Semicolon Slash), assigned
`clamp(baseC + i, 0, 127)` for i = 0..16 where `baseC = 12*floor(base/12)`;
the anchor KeyZ is pinned to `baseC` itself (not to the base note). -/
theorem claim_C9 (base : ℚ) (hb0 : 0 ≤ base) (hb1 : base ≤ 127) :
    (getQwertyMap .singleRow base Option.none).length = 17 ∧
    (getQwertyMap .singleRow base Option.none).lookup "KeyZ" = some (baseCOf base) ∧
    (getQwertyMap .singleRow base Option.none).lookup "KeyS" =
      some (clamp (baseCOf base + 1) 0 127) ∧
    (getQwertyMap .singleRow base Option.none).lookup "KeyX" =
      some (clamp (baseCOf base + 2) 0 127) ∧
    (getQwertyMap .singleRow base Option.none).lookup "KeyD" =
      some (clamp (baseCOf base + 3) 0 127) ∧
    (getQwertyMap .singleRow base Option.none).lookup "KeyC" =
      some (clamp (baseCOf base + 4) 0 127) ∧
    (getQwertyMap .singleRow base Option.none).lookup "KeyV" =
      some (clamp (baseCOf base + 5) 0 127) ∧
    (getQwertyMap .singleRow base Option.none).lookup "KeyG" =
      some (clamp (baseCOf base + 6) 0 127) ∧
    (getQwertyMap .singleRow base Option.none).lookup "KeyB" =
      some (clamp (baseCOf base + 7) 0 127) ∧
    (getQwertyMap .singleRow base Option.none).lookup "KeyH" =
      some (clamp (baseCOf base + 8) 0 127) ∧
    (getQwertyMap .singleRow base Option.none).lookup "KeyN" =
      some (clamp (baseCOf base + 9) 0 127) ∧
    (getQwertyMap .singleRow base Option.none).lookup "KeyJ" =
      some (clamp (baseCOf base + 10) 0 127) ∧
    (getQwertyMap .singleRow base Option.none).lookup "KeyM" =
      some (clamp (baseCOf base + 11) 0 127) ∧
    (getQwertyMap .singleRow base Option.none).lookup "Comma" =
      some (clamp (baseCOf base + 12) 0 127) ∧
    (getQwertyMap .singleRow base Option.none).lookup "KeyL" =
      some (clamp (baseCOf base + 13) 0 127) ∧
    (getQwertyMap .singleRow base Option.none).lookup "Period" =
      some (clamp (baseCOf base + 14) 0 127) ∧
    (getQwertyMap .singleRow base Option.none).lookup "Semicolon" =
      some (clamp (baseCOf base + 15) 0 127) ∧
    (getQwertyMap .singleRow base Option.none).lookup "Slash" =
      some (clamp (baseCOf base + 16) 0 127) := by
  have hm := getQwertyMap_singleRow base
  have hfl0 : (0 : ℤ) ≤ ⌊base / 12⌋ := Int.floor_nonneg.mpr (by positivity)
  have hfl1 : ⌊base / 12⌋ ≤ 10 := by
    have hlt : base / 12 < 11 := by
      rw [div_lt_iff (by norm_num : (0:ℚ) < 12)]
      linarith
    have := Int.floor_lt.mpr (by exact_mod_cast hlt : base / 12 < ((11 : ℤ) : ℚ))
    omega
  have h0c : 0 ≤ baseCOf base := by
    unfold baseCOf
    rw [jsFloor_eq_floor]
    have : (0 : ℚ) ≤ (⌊base / 12⌋ : ℚ) := by exact_mod_cast hfl0
    linarith
  have h1c : baseCOf base ≤ 120 := by
    unfold baseCOf
    rw [jsFloor_eq_floor]
    have : ((⌊base / 12⌋ : ℤ) : ℚ) ≤ 10 := by exact_mod_cast hfl1
    linarith
  have hanchor : clamp (baseCOf base + 0) 0 127 = baseCOf base := by
    unfold clamp
    rw [add_zero, min_eq_right (by linarith), max_eq_right h0c]
  refine ⟨by simp only [hm]; rfl, ?_, by simp only [hm]; rfl, by simp only [hm]; rfl,
    by simp only [hm]; rfl, by simp only [hm]; rfl, by simp only [hm]; rfl,
    by simp only [hm]; rfl, by simp only [hm]; rfl, by simp only [hm]; rfl,
    by simp only [hm]; rfl, by simp only [hm]; rfl, by simp only [hm]; rfl,
    by simp only [hm]; rfl, by simp only [hm]; rfl, by simp only [hm]; rfl,
    by simp only [hm]; rfl, by simp only [hm]; rfl⟩
  have hlk : (getQwertyMap .singleRow base Option.none).lookup "KeyZ" =
      some (clamp (baseCOf base + 0) 0 127) := by simp only [hm]; rfl
  rw [hlk, hanchor]

/-- C9 witness: base note 61 — the anchor identifier KeyZ is bound to
`baseC = 60`. -/
theorem claim_C9_witness :
    (getQwertyMap .singleRow 61 Option.none).lookup "KeyZ" = some (baseCOf 61) :=
  (claim_C9 61 (by norm_num) (by norm_num)).2.1

/-! ## Gesture-aggregator helper lemmas -/

theorem fold_acc (l : List TouchState) (a b : ℚ) :
    l.foldl
      (fun (p : ℚ × ℚ) touch =>
        (p.1 + (touch.currPosX - touch.startPosX),
          max (touch.currPosY - touch.startPosY) p.2)) (a, b) =
      (a + ((l.map fun u => u.currPosX - u.startPosX).sum),
        (l.map fun u => u.currPosY - u.startPosY).foldl (fun m d => max d m) b) := by
  induction l generalizing a b with
  | nil => simp
  | cons u l ih =>
    simp only [List.foldl_cons, List.map_cons, List.sum_cons]
    rw [ih]
    congr 1
    ring

theorem foldl_max_init_le (l : List ℚ) (b : ℚ) : b ≤ l.foldl (fun m d => max d m) b := by
  induction l generalizing b with
  | nil => exact le_refl b
  | cons d l ih =>
    simp only [List.foldl_cons]
    exact le_trans (le_max_right d b) (ih (max d b))

theorem foldl_max_mem_le (l : List ℚ) (b x : ℚ) (hx : x ∈ l) :
    x ≤ l.foldl (fun m d => max d m) b := by
  induction l generalizing b with
  | nil => cases hx
  | cons d l ih =>
    simp only [List.foldl_cons]
    rcases List.mem_cons.mp hx with h | h
    · cases h
      exact le_trans (le_max_left x b) (foldl_max_init_le l (max x b))
    · exact ih (max d b) h

theorem foldl_max_le (l : List ℚ) (b c : ℚ) (hub : ∀ d ∈ l, d ≤ c) (hbc : b ≤ c) :
    l.foldl (fun m d => max d m) b ≤ c := by
  induction l generalizing b with
  | nil => exact hbc
  | cons d l ih =>
    simp only [List.foldl_cons]
    exact ih (max d b) (fun e he => hub e (List.mem_cons_of_mem d he))
      (max_le (hub d (List.mem_cons_self d l)) hbc)

theorem foldl_max_eq (l : List ℚ) (b M : ℚ) (hmem : M ∈ l) (hub : ∀ d ∈ l, d ≤ M) :
    l.foldl (fun m d => max d m) b = max M b :=
  le_antisymm
    (foldl_max_le l b (max M b) (fun d hd => le_trans (hub d hd) (le_max_left M b))
      (le_max_right M b))
    (max_le (foldl_max_mem_le l b M hmem) (foldl_max_init_le l b))

theorem min_max_eq_clamp (x : ℚ) : min 127 (max 0 x) = clamp x 0 127 := by
  unfold clamp
  rcases le_total x 0 with h | h
  · rw [max_eq_left h, min_eq_right (le_trans h (by norm_num)), max_eq_left h,
      min_eq_right (by norm_num : (0:ℚ) ≤ 127)]
  · rw [max_eq_right h, max_eq_right (le_min (by norm_num) h)]

/-- Evaluation of `updateTouchPitchBendAndMod` on a nonempty touch list:
`A` is the mean X displacement and `Y` the loop's Y maximum (initialised at
-1000). -/
theorem update_cons (k : DrawKeyboard) (t : TouchState) (ts : List TouchState) (A Y : ℚ)
    (hA : A = ((t :: ts).map fun u => u.currPosX - u.startPosX).sum /
        (((t :: ts).length : ℕ) : ℚ))
    (hY : Y = ((t :: ts).map fun u => u.currPosY - u.startPosY).foldl
        (fun m d => max d m) (-1000)) :
    updateTouchPitchBendAndMod k (t :: ts) =
      (if k.gesturesPitchBend = true ∧ |A| > 10 then
        [⟨0xe0,
          jsAnd (8192 + ((if A > 0 then (1 : ℚ) else -1) * (min 127 (max 0 (|A| - 10))) *
            8191) / 127) 0x7f,
          jsAnd (jsShr (8192 + ((if A > 0 then (1 : ℚ) else -1) *
            (min 127 (max 0 (|A| - 10))) * 8191) / 127) 7) 0x7f⟩]
      else []) ++
      (if k.gesturesModulation = true then
        [⟨0xb0,
          (if k.gesturesModulation = true ∧ Y ≥ 0 then ((11 : ℚ), min 127 (max 0 (127 - Y)))
           else if k.gesturesModulation = true then ((1 : ℚ), min 127 (max 0 |Y|))
           else ((11 : ℚ), (0 : ℚ))).1,
          (if k.gesturesModulation = true ∧ Y ≥ 0 then ((11 : ℚ), min 127 (max 0 (127 - Y)))
           else if k.gesturesModulation = true then ((1 : ℚ), min 127 (max 0 |Y|))
           else ((11 : ℚ), (0 : ℚ))).2⟩]
      else []) := by
  subst hA hY
  simp only [updateTouchPitchBendAndMod]
  rw [fold_acc (t :: ts) 0 (-1000)]
  have hne : ¬((t :: ts).length = 0) := by simp
  rw [if_neg hne, if_neg hne]
  rw [zero_add]

theorem filter_keep_one {α : Type} (p : α → Bool) (x : α) (h : p x = true) :
    [x].filter p = [x] := by
  simp [List.filter_cons, h]

theorem filter_drop_one {α : Type} (p : α → Bool) (x : α) (h : p x = false) :
    [x].filter p = [] := by
  simp [List.filter_cons, h]

/-- C6: on every update with at least one active gesture (modulation gestures
enabled, the default), exactly one control-change message is emitted: CC11
with value `clamp(127 − maxDY, 0, 127)` when the maximum Y displacement
`maxDY ≥ 0`, else CC1 with value `clamp(|maxDY|, 0, 127)`.  (The loop's
`-1000` initial accumulator never changes the emitted value: the value is
clamped to 127 in exactly the cases where the accumulator could differ from
the true maximum.) -/
theorem claim_C6 (k : DrawKeyboard) (hmod : k.gesturesModulation = true)
    (t : TouchState) (ts : List TouchState) (M : ℚ)
    (hmem : M ∈ (t :: ts).map fun u => u.currPosY - u.startPosY)
    (hub : ∀ d ∈ (t :: ts).map fun u => u.currPosY - u.startPosY, d ≤ M) :
    (updateTouchPitchBendAndMod k (t :: ts)).filter (fun m => m.status == 0xb0) =
      [⟨0xb0, if 0 ≤ M then 11 else 1,
        if 0 ≤ M then clamp (127 - M) 0 127 else clamp |M| 0 127⟩] := by
  have hY : ((t :: ts).map fun u => u.currPosY - u.startPosY).foldl (fun m d => max d m)
      (-1000) = max M (-1000) := foldl_max_eq _ _ M hmem hub
  rw [update_cons k t ts
    (((t :: ts).map fun u => u.currPosX - u.startPosX).sum / (((t :: ts).length : ℕ) : ℚ))
    (max M (-1000)) rfl hY.symm]
  rw [List.filter_append]
  have hdrop : ∀ (b1 b2 : ℚ), ((⟨0xe0, b1, b2⟩ : MIDIMessage).status == (0xb0 : ℚ)) = false :=
    fun _ _ => rfl
  have hkeep : ∀ (b1 b2 : ℚ), ((⟨0xb0, b1, b2⟩ : MIDIMessage).status == (0xb0 : ℚ)) = true :=
    fun _ _ => rfl
  have hp :
      (if k.gesturesPitchBend = true ∧
          |((t :: ts).map fun u => u.currPosX - u.startPosX).sum /
            (((t :: ts).length : ℕ) : ℚ)| > 10 then
        [(⟨0xe0,
          jsAnd (8192 + ((if ((t :: ts).map fun u => u.currPosX - u.startPosX).sum /
              (((t :: ts).length : ℕ) : ℚ) > 0 then (1 : ℚ) else -1) *
            (min 127 (max 0 (|((t :: ts).map fun u => u.currPosX - u.startPosX).sum /
              (((t :: ts).length : ℕ) : ℚ)| - 10))) * 8191) / 127) 0x7f,
          jsAnd (jsShr (8192 + ((if ((t :: ts).map fun u => u.currPosX - u.startPosX).sum /
              (((t :: ts).length : ℕ) : ℚ) > 0 then (1 : ℚ) else -1) *
            (min 127 (max 0 (|((t :: ts).map fun u => u.currPosX - u.startPosX).sum /
              (((t :: ts).length : ℕ) : ℚ)| - 10))) * 8191) / 127) 7) 0x7f⟩ : MIDIMessage)]
      else []).filter (fun m => m.status == 0xb0) = [] := by
    split
    · rw [filter_drop_one (fun (m : MIDIMessage) => m.status == 0xb0) _ (hdrop _ _)]
    · rfl
  rw [hp, List.nil_append, if_pos hmod]
  rcases le_or_lt 0 M with hM | hM
  · have hYv : max M (-1000) = M := max_eq_left (by linarith)
    rw [hYv, if_pos (⟨hmod, hM⟩ : k.gesturesModulation = true ∧ M ≥ 0)]
    rw [filter_keep_one (fun (m : MIDIMessage) => m.status == 0xb0) _ (hkeep _ _)]
    rw [if_pos hM, if_pos hM, min_max_eq_clamp]
  · have hYneg : max M (-1000) < 0 := max_lt hM (by norm_num)
    rw [if_neg (fun hc : k.gesturesModulation = true ∧ max M (-1000) ≥ 0 =>
      absurd hc.2 (not_le.mpr hYneg))]
    rw [if_pos hmod]
    rw [filter_keep_one (fun (m : MIDIMessage) => m.status == 0xb0) _ (hkeep _ _)]
    rw [if_neg (not_le.mpr hM), if_neg (not_le.mpr hM)]
    have hval : min 127 (max 0 |max M (-1000)|) = clamp |M| 0 127 := by
      rw [abs_of_neg hYneg, abs_of_neg hM, ← min_max_eq_clamp]
      rw [show -(max M (-1000)) = min (-M) 1000 from by
        rcases le_total M (-1000) with h | h
        · rw [max_eq_right h, min_eq_right (by linarith)]
          norm_num
        · rw [max_eq_left h, min_eq_left (by linarith)]]
      have hpos : 0 < -M := by linarith
      rcases le_total (-M) 1000 with h | h
      · rw [min_eq_left h]
      · rw [min_eq_right h]
        rw [max_eq_right (by norm_num : (0:ℚ) ≤ 1000), max_eq_right hpos.le]
        rw [min_eq_left (by norm_num : (127:ℚ) ≤ 1000), min_eq_left (by linarith)]
    rw [hval]

/-- C6 witness: a single gesture dragged 30 units upward produces one CC1
(modulation) message with value 30. -/
theorem claim_C6_witness :
    (updateTouchPitchBendAndMod ({} : DrawKeyboard) [⟨0, 0, 0, -30, 60⟩]).filter
        (fun m => m.status == 0xb0) = [⟨0xb0, 1, clamp |(-30 : ℚ)| 0 127⟩] := by
  have h := claim_C6 ({} : DrawKeyboard) rfl ⟨0, 0, 0, -30, 60⟩ [] (-30)
    (by norm_num) (by intro d hd; norm_num at hd; norm_num [hd])
  rw [if_neg (by norm_num : ¬(0 : ℚ) ≤ -30), if_neg (by norm_num : ¬(0 : ℚ) ≤ -30)] at h
  exact h

/-- The spec formula always lands in the valid 14-bit range. -/
theorem spec_pitchBend14_bounds (A : ℚ) :
    0 ≤ spec_pitchBend14 A ∧ spec_pitchBend14 A ≤ 16383 := by
  unfold spec_pitchBend14 clamp
  have h1 : 0 ≤ max 0 (min 127 (|A| - 10)) := le_max_left 0 _
  have h2 : max 0 (min 127 (|A| - 10)) ≤ 127 := max_le (by norm_num) (min_le_left _ _)
  by_cases h : 0 < A
  · rw [if_pos h]
    constructor <;> linarith
  · rw [if_neg h]
    constructor <;> linarith

/-- The pitch-bend half of an update on a nonempty touch list: a single
message encoding exactly the spec formula when `|avgDX| > 10`, nothing
otherwise. -/
theorem update_pitch (k : DrawKeyboard) (hpb : k.gesturesPitchBend = true)
    (t : TouchState) (ts : List TouchState) (A : ℚ)
    (hA : A = ((t :: ts).map fun u => u.currPosX - u.startPosX).sum /
        (((t :: ts).length : ℕ) : ℚ)) :
    (updateTouchPitchBendAndMod k (t :: ts)).filter (fun m => m.status == 0xe0) =
      (if |A| > 10 then
        [⟨0xe0, (encodePitchBendBytes (spec_pitchBend14 A)).1,
          (encodePitchBendBytes (spec_pitchBend14 A)).2⟩]
      else []) := by
  rw [update_cons k t ts A
    (((t :: ts).map fun u => u.currPosY - u.startPosY).foldl (fun m d => max d m) (-1000))
    hA rfl]
  rw [List.filter_append]
  have hkeepE : ∀ (b1 b2 : ℚ), ((⟨0xe0, b1, b2⟩ : MIDIMessage).status == (0xe0 : ℚ)) = true :=
    fun _ _ => rfl
  have hdropB : ∀ (b1 b2 : ℚ), ((⟨0xb0, b1, b2⟩ : MIDIMessage).status == (0xe0 : ℚ)) = false :=
    fun _ _ => rfl
  have hmodpart :
      (if k.gesturesModulation = true then
        [(⟨0xb0,
          (if k.gesturesModulation = true ∧
              ((t :: ts).map fun u => u.currPosY - u.startPosY).foldl (fun m d => max d m)
                (-1000) ≥ 0 then
            ((11 : ℚ), min 127 (max 0 (127 - ((t :: ts).map fun u => u.currPosY - u.startPosY).foldl
              (fun m d => max d m) (-1000))))
           else if k.gesturesModulation = true then
            ((1 : ℚ), min 127 (max 0 |((t :: ts).map fun u => u.currPosY - u.startPosY).foldl
              (fun m d => max d m) (-1000)|))
           else ((11 : ℚ), (0 : ℚ))).1,
          (if k.gesturesModulation = true ∧
              ((t :: ts).map fun u => u.currPosY - u.startPosY).foldl (fun m d => max d m)
                (-1000) ≥ 0 then
            ((11 : ℚ), min 127 (max 0 (127 - ((t :: ts).map fun u => u.currPosY - u.startPosY).foldl
              (fun m d => max d m) (-1000))))
           else if k.gesturesModulation = true then
            ((1 : ℚ), min 127 (max 0 |((t :: ts).map fun u => u.currPosY - u.startPosY).foldl
              (fun m d => max d m) (-1000)|))
           else ((11 : ℚ), (0 : ℚ))).2⟩ : MIDIMessage)]
      else []).filter (fun m => m.status == 0xe0) = [] := by
    split
    · rw [filter_drop_one (fun (m : MIDIMessage) => m.status == 0xe0) _ (hdropB _ _)]
    · rfl
  by_cases hgt : |A| > 10
  · rw [if_pos (⟨hpb, hgt⟩ : k.gesturesPitchBend = true ∧ |A| > 10), if_pos hgt]
    rw [filter_keep_one (fun (m : MIDIMessage) => m.status == 0xe0) _ (hkeepE _ _)]
    rw [hmodpart, List.append_nil]
    have hv : 8192 + ((if A > 0 then (1 : ℚ) else -1) * (min 127 (max 0 (|A| - 10))) * 8191) /
        127 = spec_pitchBend14 A := by
      unfold spec_pitchBend14
      rw [min_max_eq_clamp (|A| - 10)]
    rw [hv]
    simp only [encodePitchBendBytes]
  · rw [if_neg (fun hc : k.gesturesPitchBend = true ∧ |A| > 10 => hgt hc.2), if_neg hgt]
    rw [List.filter_nil, List.nil_append, hmodpart]

/-- C5: while at least one gesture is active (pitch-bend gestures enabled,
the default): if `|avgDX| ≤ 10` no pitch-bend message is emitted; if
`|avgDX| > 10` exactly one pitch-bend message is emitted, carrying the value
`8192 + sign(avgDX)*clamp(|avgDX|-10,0,127)*8191/127`, which lies in
[0,16383]; its two data bytes decode to the floor of that value.  In
particular the single gesture dragged from (100,50) to (85,50) has bend
magnitude 5 and its emitted message decodes to 7869 (≈ 8192 − 5·8191/127). -/
theorem claim_C5 (k : DrawKeyboard) (hpb : k.gesturesPitchBend = true)
    (t : TouchState) (ts : List TouchState) (A : ℚ)
    (hA : A = ((t :: ts).map fun u => u.currPosX - u.startPosX).sum /
        (((t :: ts).length : ℕ) : ℚ)) :
    ((|A| ≤ 10 →
        (updateTouchPitchBendAndMod k (t :: ts)).filter (fun m => m.status == 0xe0) = []) ∧
      (|A| > 10 →
        (updateTouchPitchBendAndMod k (t :: ts)).filter (fun m => m.status == 0xe0) =
          [⟨0xe0, (encodePitchBendBytes (spec_pitchBend14 A)).1,
            (encodePitchBendBytes (spec_pitchBend14 A)).2⟩] ∧
        0 ≤ spec_pitchBend14 A ∧ spec_pitchBend14 A ≤ 16383 ∧
        decodePitchBendValue (encodePitchBendBytes (spec_pitchBend14 A)).1
            (encodePitchBendBytes (spec_pitchBend14 A)).2 =
          ((⌊spec_pitchBend14 A⌋ : ℤ) : ℚ))) ∧
    (((updateTouchPitchBendAndMod ({} : DrawKeyboard) [⟨100, 50, 85, 50, 23⟩]).filter
        (fun m => m.status == 0xe0)).map
          (fun m => decodePitchBendValue m.data1 m.data2) = [7869] ∧
      clamp (|(-15 : ℚ)| - 10) 0 127 = 5) := by
  have hup := update_pitch k hpb t ts A hA
  refine ⟨⟨?_, ?_⟩, ?_, by norm_num [clamp]⟩
  · intro hle
    rw [hup, if_neg (not_lt.mpr hle)]
  · intro hgt
    have hb := spec_pitchBend14_bounds A
    refine ⟨by rw [hup, if_pos hgt], hb.1, hb.2, ?_⟩
    simp only [encodePitchBendBytes]
    exact decode_encode_floor (spec_pitchBend14 A) hb.1 (by linarith [hb.2])
  · have hsc := update_pitch ({} : DrawKeyboard) rfl ⟨100, 50, 85, 50, 23⟩ [] (-15)
      (by norm_num)
    rw [if_pos (by norm_num : |(-15 : ℚ)| > 10)] at hsc
    rw [hsc, List.map_cons, List.map_nil]
    have hb := spec_pitchBend14_bounds (-15)
    have hdec := decode_encode_floor (spec_pitchBend14 (-15)) hb.1 (by linarith [hb.2])
    have hval : spec_pitchBend14 (-15) = 999429 / 127 := by
      unfold spec_pitchBend14
      rw [if_neg (by norm_num : ¬(0 : ℚ) < -15)]
      norm_num [clamp]
    have hfloor : ⌊spec_pitchBend14 (-15)⌋ = 7869 := by
      rw [hval]
      norm_num
    simp only [encodePitchBendBytes] at hdec
    rw [show (⟨0xe0, (encodePitchBendBytes (spec_pitchBend14 (-15))).1,
        (encodePitchBendBytes (spec_pitchBend14 (-15))).2⟩ : MIDIMessage).data1 =
        (encodePitchBendBytes (spec_pitchBend14 (-15))).1 from rfl]
    rw [show (⟨0xe0, (encodePitchBendBytes (spec_pitchBend14 (-15))).1,
        (encodePitchBendBytes (spec_pitchBend14 (-15))).2⟩ : MIDIMessage).data2 =
        (encodePitchBendBytes (spec_pitchBend14 (-15))).2 from rfl]
    simp only [encodePitchBendBytes]
    rw [hdec, hfloor]
    norm_num

/-- C5 witness: a single gesture with X displacement −15 (avg −15). -/
theorem claim_C5_witness :
    (updateTouchPitchBendAndMod ({} : DrawKeyboard) [⟨100, 50, 85, 50, 23⟩]).filter
        (fun m => m.status == 0xe0) =
      [⟨0xe0, (encodePitchBendBytes (spec_pitchBend14 (-15))).1,
        (encodePitchBendBytes (spec_pitchBend14 (-15))).2⟩] :=
  ((claim_C5 ({} : DrawKeyboard) rfl ⟨100, 50, 85, 50, 23⟩ [] (-15) (by norm_num)).1.2
    (by norm_num)).1

/-! ## Claim C2 -/

/-- With zero active touches an update emits exactly one message: CC11 = 127
(and no pitch-bend message, since the dead zone test fails at 0). -/
theorem update_empty (k : DrawKeyboard) :
    updateTouchPitchBendAndMod k [] =
      (if k.gesturesModulation = true then [⟨0xb0, 11, 127⟩] else []) := by
  by_cases hm : k.gesturesModulation = true <;>
    simp [updateTouchPitchBendAndMod, hm]

/-- Ending the last active pointer: the touch map empties and exactly two
messages are sent — the note-off and one CC11 = 127.  No pitch-bend reset
and no CC1 reset are emitted on this transition (the full three-signal reset
happens on gesture start instead). -/
theorem handleEnd_last (k : DrawKeyboard) (hmod : k.gesturesModulation = true)
    (s : KbState) (pid : ℕ) (ts : TouchState) (hact : s.activeTouches = [(pid, ts)])
    (hn0 : 0 ≤ ts.note) (hn1 : ts.note ≤ 127) (cx cy : ℚ) :
    (handleSyntheticTouchLike k s pid cx cy .end_).1.activeTouches = [] ∧
    (handleSyntheticTouchLike k s pid cx cy .end_).2 =
      [⟨0x80, ts.note, 0⟩, ⟨0xb0, 11, 127⟩] := by
  have hget : getTouch s.activeTouches pid = some ts := by
    rw [hact]
    simp [getTouch]
  have hrel : release k s ts.note false =
      ({ s with renderQueue :=
          s.renderQueue ++ [(ts.note - k.startingNote, k.highlightColor, false)] }, []) := by
    simp only [release]
    rw [if_neg ((not_or).mpr ⟨not_lt.mpr hn0, not_lt.mpr hn1⟩)]
    rfl
  have hdel : delTouch s.activeTouches pid = [] := by
    rw [hact]
    simp [delTouch]
  simp only [handleSyntheticTouchLike, hget]
  rw [if_pos ⟨hn0, hn1⟩, hrel]
  simp only [hdel, List.map_nil]
  rw [update_empty, if_pos hmod]
  exact ⟨trivial, rfl⟩

/-- C2 counterexample: for a state with one active gesture (note 60), the
last pointer's end event emits exactly the note-off and CC11 = 127 — the
message stream of the transition to zero active gestures contains no
pitch-bend message at all and no CC1 message, refuting the claimed
three-signal reset (pitch bend 8192, CC1 0, CC11 127). -/
theorem claim_C2_counterexample :
    ((handleSyntheticTouchLike ({} : DrawKeyboard) ⟨[(1, ⟨100, 50, 100, 50, 60⟩)], []⟩ 1 100 50
        .end_).2 = [⟨0x80, 60, 0⟩, ⟨0xb0, 11, 127⟩]) ∧
    ((handleSyntheticTouchLike ({} : DrawKeyboard) ⟨[(1, ⟨100, 50, 100, 50, 60⟩)], []⟩ 1 100 50
        .end_).1.activeTouches = []) ∧
    ((handleSyntheticTouchLike ({} : DrawKeyboard) ⟨[(1, ⟨100, 50, 100, 50, 60⟩)], []⟩ 1 100 50
        .end_).2.filter (fun m => m.status == 0xe0) = []) ∧
    ((handleSyntheticTouchLike ({} : DrawKeyboard) ⟨[(1, ⟨100, 50, 100, 50, 60⟩)], []⟩ 1 100 50
        .end_).2.filter (fun m => m.status == 0xb0 && m.data1 == 1) = []) := by
  have h := handleEnd_last ({} : DrawKeyboard) rfl ⟨[(1, ⟨100, 50, 100, 50, 60⟩)], []⟩ 1
    ⟨100, 50, 100, 50, 60⟩ rfl (by norm_num) (by norm_num) 100 50
  refine ⟨h.2, h.1, ?_, ?_⟩ <;> rw [h.2] <;> rfl

/-- C2 (amended): on the transition from one active gesture to zero (the
last pointer's end event, modulation enabled as by default, bound note in
range), the aggregator emits exactly one continuous-controller message,
CC11 = 127, preceded by the gesture's note-off; pitch bend and CC1 are not
reset here — the full (8192, CC1=0, CC11=127) reset is emitted on every
gesture start instead. -/
theorem claim_C2 (k : DrawKeyboard) (hmod : k.gesturesModulation = true)
    (s : KbState) (pid : ℕ) (ts : TouchState) (hact : s.activeTouches = [(pid, ts)])
    (hn0 : 0 ≤ ts.note) (hn1 : ts.note ≤ 127) (cx cy : ℚ) :
    (handleSyntheticTouchLike k s pid cx cy .end_).1.activeTouches = [] ∧
    (handleSyntheticTouchLike k s pid cx cy .end_).2 =
      [⟨0x80, ts.note, 0⟩, ⟨0xb0, 11, 127⟩] :=
  handleEnd_last k hmod s pid ts hact hn0 hn1 cx cy

/-- C2 witness: pointer 7 ending its gesture on note 72. -/
theorem claim_C2_witness :
    (handleSyntheticTouchLike ({} : DrawKeyboard) ⟨[(7, ⟨0, 0, 3, 4, 72⟩)], []⟩ 7 3 4
        .end_).1.activeTouches = [] ∧
    (handleSyntheticTouchLike ({} : DrawKeyboard) ⟨[(7, ⟨0, 0, 3, 4, 72⟩)], []⟩ 7 3 4
        .end_).2 = [⟨0x80, 72, 0⟩, ⟨0xb0, 11, 127⟩] :=
  claim_C2 ({} : DrawKeyboard) rfl ⟨[(7, ⟨0, 0, 3, 4, 72⟩)], []⟩ 7 ⟨0, 0, 3, 4, 72⟩ rfl
    (by norm_num) (by norm_num) 3 4

end DrawPiano
